import Mathlib

/-!
Shallow embedding of the Hydronauts water-simulation core (`src/app.py`).

Numbers are modelled as rationals.  Python dicts are association lists
(`dget?` models `d[k]` reads, which raise `KeyError` when the key is
absent, hence the `Option`; `dset` models `d[k] = v`, which inserts the
key when absent).  Python list indexing (`pyGet?`, `pySet`) supports
negative indices and raises `IndexError` out of range.  Randomness and
wall-clock timestamps are threaded in explicitly as oracle structures,
and `math.sin` is an arbitrary parameter `sinQ` of the tick functions.
-/

/-- Anomaly types: the strings "leak", "burst", "low_pressure" of the source. -/
inductive AType where
  | leak
  | burst
  | low_pressure
deriving DecidableEq, Repr

/-- One entry of `WaterSimulator.alerts`: the tuple `(ts, msg, atype)`. -/
structure Alert where
  ts : String
  msg : String
  atype : Option AType
deriving DecidableEq, Repr

/-- Python dict read `d[k]`: `none` models a raised `KeyError`. -/
def dget? {α : Type} (d : List (String × α)) (k : String) : Option α :=
  match d with
  | [] => none
  | p :: rest => if p.1 == k then some p.2 else dget? rest k

/-- Python dict write `d[k] = v`: updates the key in place (the dicts of this
program never hold a key twice), or appends the new key at the end. -/
def dset {α : Type} (d : List (String × α)) (k : String) (v : α) : List (String × α) :=
  match d with
  | [] => [(k, v)]
  | p :: rest => if p.1 == k then (k, v) :: rest else p :: dset rest k v

/-- Python list index normalisation: valid nonnegative or negative index, else `none`. -/
def pyIdx (len : ℕ) (i : ℤ) : Option ℕ :=
  if 0 ≤ i ∧ i < (len : ℤ) then some i.toNat
  else if -(len : ℤ) ≤ i ∧ i < 0 then some (i + (len : ℤ)).toNat
  else none

/-- Python list read `l[i]`: `none` models a raised `IndexError`. -/
def pyGet? {α : Type} (l : List α) (i : ℤ) : Option α :=
  (pyIdx l.length i).bind (fun n => l.get? n)

/-- Python list write `l[i] = v` (only ever used after a successful read). -/
def pySet {α : Type} (l : List α) (i : ℤ) (v : α) : List α :=
  match pyIdx l.length i with
  | some n => l.set n v
  | none => l

/-- `collections.deque` append with a maxlen: evict from the front on overflow. -/
def dqAppend (maxlen : ℕ) (q : List ℚ) (x : ℚ) : List ℚ :=
  let q' := q ++ [x]
  if maxlen < q'.length then q'.drop (q'.length - maxlen) else q'

/-- Round-half-to-even on rationals, the rounding used by Python's `round`. -/
def roundHalfEven (y : ℚ) : ℤ :=
  if y - ⌊y⌋ < 1/2 then ⌊y⌋
  else if 1/2 < y - ⌊y⌋ then ⌊y⌋ + 1
  else if ⌊y⌋ % 2 = 0 then ⌊y⌋ else ⌊y⌋ + 1

/-- Python `round(x, n)` on the rational idealisation of floats. -/
def pyRound (x : ℚ) (n : ℕ) : ℚ := (roundHalfEven (x * 10 ^ n) : ℚ) / 10 ^ n

/-- `random.choice(["leak", "burst", "low_pressure"])` given the drawn index. -/
def chooseType (i : Fin 3) : AType :=
  if i = 0 then .leak else if i = 1 then .burst else .low_pressure

/-- The additive pressure offset of an active anomaly (`anom_effect` in `step`). -/
def anomEffect : Option AType → ℚ
  | some .leak => -4/10
  | some .burst => -9/10
  | some .low_pressure => -6/10
  | none => 0

/-- The alert message built by `_add_alert` from the zone and anomaly type. -/
def alertMsg (zone : String) (atype : Option AType) : String :=
  match atype with
  | some .leak => "⚠ Possible leak detected in " ++ zone
  | some .burst => "🔴 Pipe burst alert in " ++ zone ++ "!"
  | some .low_pressure => "⬇ Low pressure threshold crossed in " ++ zone
  | none => "Alert in " ++ zone

/-- The four zone display names (module constant `ZONES`). -/
def ZONES : List String :=
  ["Zone A (Central)", "Zone B (North)", "Zone C (Elevated)", "Zone D (Tail-End)"]

/-- Module constant `ZONE_BASE_PRESSURE = [3.8, 3.2, 2.4, 1.8]`. -/
def ZONE_BASE_PRESSURE : List ℚ := [38/10, 32/10, 24/10, 18/10]

/-- Module constant `ZONE_MIN_OK = [2.5, 2.5, 2.0, 1.5]`. -/
def ZONE_MIN_OK : List ℚ := [25/10, 25/10, 2, 15/10]

/-- The mutable state of a `WaterSimulator` instance, field for field. -/
structure SimState where
  running : Bool
  tick : ℕ
  history_len : ℕ
  anomaly_active : List (String × Bool)
  anomaly_type : List (String × Option AType)
  pressure_hist : List (String × List ℚ)
  flow_hist : List (String × List ℚ)
  alerts : List Alert
  total_alerts : ℕ
  nrw_percent : ℚ
  energy_kwh : ℚ
  uptime_pct : ℚ
  pump_status : List String
  valve_status : List Bool
deriving DecidableEq, Repr

/-- `WaterSimulator.__init__`; `fs i` is the `random.uniform(8, 14)` draw made
for the flow history of zone number `i`. -/
def initState (fs : ℕ → ℚ) : SimState where
  running := true
  tick := 0
  history_len := 120
  anomaly_active := ZONES.map (fun z => (z, false))
  anomaly_type := ZONES.map (fun z => (z, none))
  pressure_hist :=
    (List.zip ZONES ZONE_BASE_PRESSURE).map (fun p => (p.1, List.replicate 120 p.2))
  flow_hist :=
    (ZONES.enum).map (fun p => (p.2, List.replicate 120 (pyRound (fs p.1) 2)))
  alerts := []
  total_alerts := 0
  nrw_percent := 184/10
  energy_kwh := 0
  uptime_pct := 992/10
  pump_status := ["Running", "Running", "Standby", "Running"]
  valve_status := [true, true, false, true]

/-- `WaterSimulator._add_alert(zone, atype)`; `ts` is the `datetime.now()` reading. -/
def add_alert (st : SimState) (ts : String) (zone : String) (atype : Option AType) : SimState :=
  let total := st.total_alerts + 1
  let alerts := { ts := ts, msg := alertMsg zone atype, atype := atype } :: st.alerts
  let alerts := if 50 < alerts.length then alerts.dropLast else alerts
  { st with total_alerts := total, alerts := alerts }

/-- The random draws and the timestamp consumed for one zone inside `step`. -/
structure ZoneRand where
  noise : ℚ
  injectRoll : ℚ
  injectChoice : Fin 3
  ts : String
  resolveRoll : ℚ
  flowUniform : ℚ

/-- The random draws consumed by one whole call of `step`. -/
structure TickRand where
  zr : ℕ → ZoneRand
  nrwGauss : ℚ
  energyUniform : ℚ

/-- Lines 108-112 of `step`: rare random anomaly injection, with its alert. -/
def injectStep (r : ZoneRand) (zone : String) (active : Bool) (st : SimState) :
    Option SimState :=
  if active = false ∧ r.injectRoll < 3/1000 then
    let ty := chooseType r.injectChoice
    let st' := { st with anomaly_active := dset st.anomaly_active zone true,
                         anomaly_type := dset st.anomaly_type zone (some ty) }
    (dget? st'.anomaly_type zone).map (fun v => add_alert st' r.ts zone v)
  else some st

/-- Lines 114-126 of `step`: anomaly pressure effect and random auto-resolution. -/
def effectResolve (r : ZoneRand) (zone : String) (st : SimState) :
    Option (ℚ × SimState) :=
  match dget? st.anomaly_active zone with
  | none => none
  | some active =>
    if active then
      (dget? st.anomaly_type zone).map (fun atype =>
        (anomEffect atype,
          if r.resolveRoll < 35/1000 then
            { st with anomaly_active := dset st.anomaly_active zone false,
                      anomaly_type := dset st.anomaly_type zone none }
          else st))
    else some (0, st)

/-- Lines 131-132 of `step`: append the rounded samples to both deques. -/
def pushHist (zone : String) (p f : ℚ) (st : SimState) : Option SimState :=
  match dget? st.pressure_hist zone, dget? st.flow_hist zone with
  | some ph, some fh =>
    some { st with
      pressure_hist := dset st.pressure_hist zone (dqAppend 120 ph (pyRound p 3)),
      flow_hist := dset st.flow_hist zone (dqAppend 120 fh (pyRound f 2)) }
  | _, _ => none

/-- `demand_wave = 0.3*sin(t/20.0) + 0.1*sin(t/7.0)`, with `sinQ` standing for `math.sin`. -/
def demandWave (sinQ : ℚ → ℚ) (t : ℕ) : ℚ :=
  3/10 * sinQ ((t : ℚ) / 20) + 1/10 * sinQ ((t : ℚ) / 7)

/-- Line 128 of `step`: `pressure = max(0.3, base + demand_wave + noise + anom_effect)`. -/
def pressureOf (sinQ : ℚ → ℚ) (t : ℕ) (base noise eff : ℚ) : ℚ :=
  max (3/10) (base + demandWave sinQ t + noise + eff)

/-- Line 129 of `step`: `flow = max(0.5, (pressure / base) * uniform(10, 15))`. -/
def flowOf (pressure base fu : ℚ) : ℚ :=
  max (1/2) (pressure / base * fu)

/-- The body of `step`'s per-zone loop for index `i` and name `zone`. -/
def stepZone (sinQ : ℚ → ℚ) (t : ℕ) (i : ℕ) (zone : String) (r : ZoneRand)
    (st : SimState) : Option SimState :=
  match ZONE_BASE_PRESSURE.get? i with
  | none => none
  | some base =>
    match dget? st.anomaly_active zone with
    | none => none
    | some active =>
      match injectStep r zone active st with
      | none => none
      | some st1 =>
        match effectResolve r zone st1 with
        | none => none
        | some (eff, st2) =>
          let pressure := pressureOf sinQ t base r.noise eff
          pushHist zone pressure (flowOf pressure base r.flowUniform) st2

/-- The per-zone loop of `step`, over index-name pairs. -/
def stepZonesAux (sinQ : ℚ → ℚ) (t : ℕ) (zr : ℕ → ZoneRand) :
    List (ℕ × String) → SimState → Option SimState
  | [], st => some st
  | p :: rest, st =>
    match stepZone sinQ t p.1 p.2 (zr p.1) st with
    | none => none
    | some st' => stepZonesAux sinQ t zr rest st'

/-- `sum(1 for z in ZONES if self.anomaly_active[z])`, reading the dict per zone. -/
def countActiveAux (st : SimState) : List String → ℕ → Option ℕ
  | [], n => some n
  | z :: rest, n =>
    match dget? st.anomaly_active z with
    | none => none
    | some b => countActiveAux st rest (if b then n + 1 else n)

/-- The number of zones with an active anomaly, as computed at line 138. -/
def countActive (st : SimState) : Option ℕ := countActiveAux st ZONES 0

/-- `WaterSimulator.step`, with all random draws supplied by the oracle `o`. -/
def step (sinQ : ℚ → ℚ) (o : TickRand) (st : SimState) : Option SimState :=
  let stt := { st with tick := st.tick + 1 }
  let t := stt.tick
  match stepZonesAux sinQ t o.zr ZONES.enum stt with
  | none => none
  | some st1 =>
    if t % 10 = 0 then
      match countActive st1 with
      | none => none
      | some active_anomalies =>
        some { st1 with
          nrw_percent := max 10 (min 35 (st1.nrw_percent + o.nrwGauss)),
          energy_kwh := st1.energy_kwh + o.energyUniform,
          uptime_pct :=
            if active_anomalies = 0 then 100
            else max 90 (100 - (active_anomalies : ℚ) * (5/2)) }
    else some st1

/-- `WaterSimulator.resolve_anomaly(zone)`: total, like the dict writes it makes. -/
def resolve_anomaly (st : SimState) (zone : String) : SimState :=
  { st with anomaly_active := dset st.anomaly_active zone false,
            anomaly_type := dset st.anomaly_type zone none }

/-- `WaterSimulator.toggle_valve(zone_idx)`: `none` models the `IndexError`. -/
def toggle_valve (st : SimState) (zone_idx : ℤ) : Option SimState :=
  match pyGet? st.valve_status zone_idx with
  | none => none
  | some v => some { st with valve_status := pySet st.valve_status zone_idx (!v) }

/-- `HydronautsApp._clear_alerts`: empty the log and zero the counter. -/
def clear_alerts (st : SimState) : SimState :=
  { st with alerts := [], total_alerts := 0 }

/-- `WaterSimulator.current_pressure(zone)`: last element of the pressure deque. -/
def current_pressure (st : SimState) (zone : String) : Option ℚ :=
  (dget? st.pressure_hist zone).bind (fun l => l.getLast?)

/-- `WaterSimulator.current_flow(zone)`: last element of the flow deque. -/
def current_flow (st : SimState) (zone : String) : Option ℚ :=
  (dget? st.flow_hist zone).bind (fun l => l.getLast?)

/-- Reference status derivation following the words of spec section 4.1: anomaly
label first, then the threshold checks on the current pressure. -/
def specStatus (atype : Option AType) (p base minOk : ℚ) : String :=
  match atype with
  | some .burst => "BURST"
  | some .leak => "LEAK"
  | some .low_pressure => "LOW"
  | none => if p < minOk then "LOW" else if base + 8/10 < p then "HIGH" else "OK"

/-- `WaterSimulator.zone_status(zone)`: `none` models the `KeyError`/`ValueError`
raised on an unknown zone. -/
def zone_status (st : SimState) (zone : String) : Option String :=
  match current_pressure st zone, List.findIdx? (fun z' => z' == zone) ZONES with
  | some p, some i =>
    match dget? st.anomaly_active zone with
    | none => none
    | some active =>
      if active then
        match dget? st.anomaly_type zone with
        | none => none
        | some atype =>
          some (match atype with
            | some .burst => "BURST"
            | some .leak => "LEAK"
            | _ => "LOW")
      else
        match ZONE_MIN_OK.get? i, ZONE_BASE_PRESSURE.get? i with
        | some minOk, some base =>
          some (if p < minOk then "LOW" else if base + 8/10 < p then "HIGH" else "OK")
        | _, _ => none
  | _, _ => none

/-- The state of `HydronautsApp` that matters to the core: the simulator plus
the `_sim_running` pause flag polled by `_sim_loop`. -/
structure AppState where
  sim : SimState
  sim_running : Bool
deriving Repr

/-- The external commands plus the cadence tick of `_sim_loop`. -/
inductive Op where
  | tick (sinQ : ℚ → ℚ) (o : TickRand)
  | resolve (zone : String)
  | toggleValve (idx : ℤ)
  | toggleSim
  | clearAlerts

/-- Range constraint satisfied by the `random.uniform(0.05, 0.12)` energy draw. -/
def ValidTick (o : TickRand) : Prop :=
  1/20 ≤ o.energyUniform ∧ o.energyUniform ≤ 3/25

/-- A tick's oracle models a genuine `random.uniform` output; commands carry
no random draws. -/
def OpValid : Op → Prop
  | .tick _ o => ValidTick o
  | _ => True

/-- One operation of the running application: `_sim_loop` skips `step` while
paused, `_toggle_sim` flips the pause flag, and the UI callbacks delegate to
the simulator methods. -/
def applyOp (a : AppState) : Op → Option AppState
  | .tick sinQ o =>
    if a.sim_running then (step sinQ o a.sim).map (fun s => { a with sim := s })
    else some a
  | .resolve z => some { a with sim := resolve_anomaly a.sim z }
  | .toggleValve i => (toggle_valve a.sim i).map (fun s => { a with sim := s })
  | .toggleSim => some { a with sim_running := !a.sim_running }
  | .clearAlerts => some { a with sim := clear_alerts a.sim }

/-- The freshly started application: `SIM = WaterSimulator()` and `_sim_running = True`. -/
def initApp (fs : ℕ → ℚ) : AppState :=
  { sim := initState fs, sim_running := true }

/-- States reachable from a fresh start by any sequence of ticks and commands. -/
inductive Reachable : AppState → Prop where
  | init (fs : ℕ → ℚ) : Reachable (initApp fs)
  | next {a a' : AppState} (op : Op) :
      Reachable a → OpValid op → applyOp a op = some a' → Reachable a'

/-- The anomaly flag and the anomaly type of key `k` agree: both entries absent,
or both present with the flag true exactly when the type is an active one. -/
def CoherentAt (st : SimState) (k : String) : Prop :=
  (dget? st.anomaly_active k).map (fun b => b) =
    (dget? st.anomaly_type k).map Option.isSome

/-- Claim C10's coherence invariant, at every key. -/
def Coherent (st : SimState) : Prop := ∀ k, CoherentAt st k

/-- Structural well-formedness maintained by every operation. -/
structure WF (st : SimState) : Prop where
  keysA : ∀ z ∈ ZONES, (dget? st.anomaly_active z).isSome
  keysT : ∀ z ∈ ZONES, (dget? st.anomaly_type z).isSome
  histP : ∀ z ∈ ZONES, ∃ l, dget? st.pressure_hist z = some l ∧ l.length = 120
  histF : ∀ z ∈ ZONES, ∃ l, dget? st.flow_hist z = some l ∧ l.length = 120
  alerts_le : st.alerts.length ≤ 50
  valve_len : st.valve_status.length = 4
  nrw_lb : 10 ≤ st.nrw_percent
  nrw_ub : st.nrw_percent ≤ 35
  up_lb : 90 ≤ st.uptime_pct
  up_ub : st.uptime_pct ≤ 100

/-- Whether the tick injects an anomaly into the (index, zone) pair `p`:
the zone's flag is present and false, and its injection roll fires. -/
def injectsP (st : SimState) (zr : ℕ → ZoneRand) (p : ℕ × String) : Bool :=
  decide (dget? st.anomaly_active p.2 = some false) && decide ((zr p.1).injectRoll < 3/1000)

/-- The number of zones that transition from no anomaly to an active anomaly
during a tick of `st` with oracle `o`. -/
def injCount (o : TickRand) (st : SimState) : ℕ :=
  ((ZONES.enum).filter (injectsP st o.zr)).length

/-- The alert record created by `_add_alert`. -/
def newAlert (ts zone : String) (atype : Option AType) : Alert :=
  { ts := ts, msg := alertMsg zone atype, atype := atype }

theorem dget?_dset {α : Type} (d : List (String × α)) (k k' : String) (v : α) :
    dget? (dset d k v) k' = if k' = k then some v else dget? d k' := by
  induction d with
  | nil =>
    by_cases h : k' = k
    · simp [dget?, dset, h]
    · simp [dget?, dset, h, Ne.symm (h : k' ≠ k)]
  | cons p rest ih =>
    by_cases hp : p.1 = k
    · by_cases h : k' = k
      · simp [dget?, dset, hp, h]
      · simp [dget?, dset, hp, h, Ne.symm (h : k' ≠ k)]
    · by_cases h : k' = k
      · subst h
        simp [dget?, dset, hp, ih]
      · by_cases hq : p.1 = k'
        · simp [dget?, dset, hp, hq, h]
        · simp [dget?, dset, hp, hq, h, ih]

theorem dget?_dset_self {α : Type} (d : List (String × α)) (k : String) (v : α) :
    dget? (dset d k v) k = some v := by
  simp [dget?_dset]

theorem dget?_dset_ne {α : Type} (d : List (String × α)) (k k' : String) (v : α)
    (h : k' ≠ k) : dget? (dset d k v) k' = dget? d k' := by
  simp [dget?_dset, h]

theorem roundHalfEven_ge (y : ℚ) (m : ℤ) (h : (m : ℚ) ≤ y) : m ≤ roundHalfEven y := by
  have hf : m ≤ ⌊y⌋ := Int.le_floor.mpr h
  unfold roundHalfEven
  split
  · exact hf
  · split
    · omega
    · split <;> omega

theorem pyRound_ge (x : ℚ) (n : ℕ) (m : ℤ) (h : (m : ℚ) / 10 ^ n ≤ x) :
    (m : ℚ) / 10 ^ n ≤ pyRound x n := by
  have hpow : (0 : ℚ) < 10 ^ n := by positivity
  have h1 : (m : ℚ) ≤ x * 10 ^ n := by
    rw [div_le_iff₀ hpow] at h
    exact h
  have h2 : m ≤ roundHalfEven (x * 10 ^ n) := roundHalfEven_ge _ _ h1
  unfold pyRound
  rw [div_le_div_iff_of_pos_right hpow]
  exact_mod_cast h2

theorem pyRound_ge_pressure (x : ℚ) (h : 3/10 ≤ x) : 3/10 ≤ pyRound x 3 := by
  have := pyRound_ge x 3 300 (by norm_num; linarith)
  norm_num at this
  linarith

theorem pyRound_ge_flow (x : ℚ) (h : 1/2 ≤ x) : 1/2 ≤ pyRound x 2 := by
  have := pyRound_ge x 2 50 (by norm_num; linarith)
  norm_num at this
  linarith

theorem dqAppend_of_length_eq (q : List ℚ) (x : ℚ) (h : q.length = 120) :
    dqAppend 120 q x = q.drop 1 ++ [x] := by
  simp only [dqAppend, List.length_append, List.length_singleton, h]
  rw [if_pos (by norm_num)]
  have h1 : 120 + 1 - 120 = 1 := by norm_num
  rw [h1, List.drop_append_of_le_length (by omega)]

theorem dqAppend_length (q : List ℚ) (x : ℚ) (h : q.length = 120) :
    (dqAppend 120 q x).length = 120 := by
  rw [dqAppend_of_length_eq _ _ h]
  simp [h]

theorem getLast?_dqAppend (m : ℕ) (hm : 0 < m) (q : List ℚ) (x : ℚ) :
    (dqAppend m q x).getLast? = some x := by
  simp only [dqAppend]
  split
  · rw [List.drop_append_of_le_length (by simp; omega)]
    exact List.getLast?_concat _
  · exact List.getLast?_concat _

theorem take_append_take {α : Type} (l1 l2 : List α) (n : ℕ) :
    (l1 ++ l2.take n).take n = (l1 ++ l2).take n := by
  rw [List.take_append_eq_append_take, List.take_append_eq_append_take, List.take_take]
  congr 1
  rw [min_eq_left (Nat.sub_le _ _)]

theorem add_alert_total (st : SimState) (ts zone : String) (ty : Option AType) :
    (add_alert st ts zone ty).total_alerts = st.total_alerts + 1 := rfl

theorem add_alert_alerts (st : SimState) (ts zone : String) (ty : Option AType) :
    (add_alert st ts zone ty).alerts =
      if 50 < (newAlert ts zone ty :: st.alerts).length
      then (newAlert ts zone ty :: st.alerts).dropLast
      else newAlert ts zone ty :: st.alerts := rfl

theorem add_alert_take (st : SimState) (ts zone : String) (ty : Option AType)
    (h : st.alerts.length ≤ 50) :
    (add_alert st ts zone ty).alerts = (newAlert ts zone ty :: st.alerts).take 50 := by
  rw [add_alert_alerts]
  rcases Nat.lt_or_ge st.alerts.length 50 with hlt | hge
  · rw [if_neg (by simp; omega), List.take_of_length_le (by simp; omega)]
  · have h50 : st.alerts.length = 50 := le_antisymm h hge
    rw [if_pos (by simp [h50]), List.dropLast_eq_take]
    simp [h50]

theorem add_alert_le (st : SimState) (ts zone : String) (ty : Option AType)
    (h : st.alerts.length ≤ 50) :
    (add_alert st ts zone ty).alerts.length ≤ 50 := by
  rw [add_alert_take _ _ _ _ h]
  simp

theorem add_alert_misc (st : SimState) (ts zone : String) (ty : Option AType) :
    (add_alert st ts zone ty).running = st.running ∧
    (add_alert st ts zone ty).tick = st.tick ∧
    (add_alert st ts zone ty).history_len = st.history_len ∧
    (add_alert st ts zone ty).anomaly_active = st.anomaly_active ∧
    (add_alert st ts zone ty).anomaly_type = st.anomaly_type ∧
    (add_alert st ts zone ty).pressure_hist = st.pressure_hist ∧
    (add_alert st ts zone ty).flow_hist = st.flow_hist ∧
    (add_alert st ts zone ty).nrw_percent = st.nrw_percent ∧
    (add_alert st ts zone ty).energy_kwh = st.energy_kwh ∧
    (add_alert st ts zone ty).uptime_pct = st.uptime_pct ∧
    (add_alert st ts zone ty).pump_status = st.pump_status ∧
    (add_alert st ts zone ty).valve_status = st.valve_status :=
  ⟨rfl, rfl, rfl, rfl, rfl, rfl, rfl, rfl, rfl, rfl, rfl, rfl⟩

/-- Fields of the state that the per-zone tick body never writes. -/
def MiscEq (st st' : SimState) : Prop :=
  st'.running = st.running ∧ st'.tick = st.tick ∧ st'.history_len = st.history_len ∧
  st'.nrw_percent = st.nrw_percent ∧ st'.energy_kwh = st.energy_kwh ∧
  st'.uptime_pct = st.uptime_pct ∧ st'.pump_status = st.pump_status ∧
  st'.valve_status = st.valve_status

theorem miscEq_refl (st : SimState) : MiscEq st st :=
  ⟨rfl, rfl, rfl, rfl, rfl, rfl, rfl, rfl⟩

theorem miscEq_trans {a b c : SimState} (h1 : MiscEq a b) (h2 : MiscEq b c) : MiscEq a c := by
  obtain ⟨x1, x2, x3, x4, x5, x6, x7, x8⟩ := h1
  obtain ⟨y1, y2, y3, y4, y5, y6, y7, y8⟩ := h2
  exact ⟨y1.trans x1, y2.trans x2, y3.trans x3, y4.trans x4, y5.trans x5,
    y6.trans x6, y7.trans x7, y8.trans x8⟩

theorem injectStep_eq (r : ZoneRand) (zone : String) (active : Bool) (st : SimState) :
    injectStep r zone active st =
      if active = false ∧ r.injectRoll < 3/1000 then
        some (add_alert
          { st with anomaly_active := dset st.anomaly_active zone true,
                    anomaly_type :=
                      dset st.anomaly_type zone (some (chooseType r.injectChoice)) }
          r.ts zone (some (chooseType r.injectChoice)))
      else some st := by
  unfold injectStep
  split
  · simp [dget?_dset_self]
  · rfl

theorem effectResolve_inv (r : ZoneRand) (zone : String) (st : SimState) (eff : ℚ)
    (st2 : SimState) (h : effectResolve r zone st = some (eff, st2)) :
    st2 = st ∨
      st2 = { st with anomaly_active := dset st.anomaly_active zone false,
                      anomaly_type := dset st.anomaly_type zone none } := by
  unfold effectResolve at h
  cases ha : dget? st.anomaly_active zone with
  | none => rw [ha] at h; simp only [] at h; exact Option.noConfusion h
  | some active =>
    rw [ha] at h
    simp only [] at h
    cases active with
    | false =>
      simp only [Bool.false_eq_true, if_false] at h
      left
      exact (congrArg Prod.snd (Option.some.inj h)).symm
    | true =>
      rw [if_pos (rfl : true = true)] at h
      cases hty : dget? st.anomaly_type zone with
      | none => rw [hty] at h; exact Option.noConfusion h
      | some atype =>
        rw [hty] at h
        simp only [Option.map_some'] at h
        have h2 := Option.some.inj h
        by_cases hr : r.resolveRoll < 35/1000
        · right
          rw [if_pos hr] at h2
          exact (congrArg Prod.snd h2).symm
        · left
          rw [if_neg hr] at h2
          exact (congrArg Prod.snd h2).symm

theorem pushHist_inv (zone : String) (p f : ℚ) (st st' : SimState)
    (h : pushHist zone p f st = some st') :
    ∃ lp lf, dget? st.pressure_hist zone = some lp ∧ dget? st.flow_hist zone = some lf ∧
      st' = { st with
        pressure_hist := dset st.pressure_hist zone (dqAppend 120 lp (pyRound p 3)),
        flow_hist := dset st.flow_hist zone (dqAppend 120 lf (pyRound f 2)) } := by
  unfold pushHist at h
  cases hp : dget? st.pressure_hist zone with
  | none => rw [hp] at h; simp only [] at h; exact Option.noConfusion h
  | some lp =>
    cases hf : dget? st.flow_hist zone with
    | none => rw [hp, hf] at h; simp only [] at h; exact Option.noConfusion h
    | some lf =>
      rw [hp, hf] at h
      simp only [] at h
      exact ⟨lp, lf, rfl, rfl, (Option.some.inj h).symm⟩

theorem stepZone_inv (sinQ : ℚ → ℚ) (t i : ℕ) (zone : String) (r : ZoneRand)
    (st st' : SimState) (h : stepZone sinQ t i zone r st = some st') :
    ∃ base active st1 eff st2,
      ZONE_BASE_PRESSURE.get? i = some base ∧
      dget? st.anomaly_active zone = some active ∧
      injectStep r zone active st = some st1 ∧
      effectResolve r zone st1 = some (eff, st2) ∧
      pushHist zone (pressureOf sinQ t base r.noise eff)
        (flowOf (pressureOf sinQ t base r.noise eff) base r.flowUniform) st2 = some st' := by
  unfold stepZone at h
  cases hb : ZONE_BASE_PRESSURE.get? i with
  | none => rw [hb] at h; simp only [] at h; exact Option.noConfusion h
  | some base =>
    rw [hb] at h
    simp only [] at h
    cases ha : dget? st.anomaly_active zone with
    | none => rw [ha] at h; simp only [] at h; exact Option.noConfusion h
    | some active =>
      rw [ha] at h
      simp only [] at h
      cases hi : injectStep r zone active st with
      | none => rw [hi] at h; simp only [] at h; exact Option.noConfusion h
      | some st1 =>
        rw [hi] at h
        simp only [] at h
        cases he : effectResolve r zone st1 with
        | none => rw [he] at h; simp only [] at h; exact Option.noConfusion h
        | some pr =>
          obtain ⟨eff, st2⟩ := pr
          rw [he] at h
          simp only [] at h
          exact ⟨base, active, st1, eff, st2, rfl, rfl, hi, he, h⟩

theorem injectStep_cases (r : ZoneRand) (zone : String) (active : Bool)
    (st st1 : SimState) (h : injectStep r zone active st = some st1) :
    (¬(active = false ∧ r.injectRoll < 3/1000) ∧ st1 = st) ∨
    ((active = false ∧ r.injectRoll < 3/1000) ∧
      st1 = add_alert
        { st with anomaly_active := dset st.anomaly_active zone true,
                  anomaly_type :=
                    dset st.anomaly_type zone (some (chooseType r.injectChoice)) }
        r.ts zone (some (chooseType r.injectChoice))) := by
  rw [injectStep_eq] at h
  by_cases hc : active = false ∧ r.injectRoll < 3/1000
  · right
    rw [if_pos hc] at h
    exact ⟨hc, (Option.some.inj h).symm⟩
  · left
    rw [if_neg hc] at h
    exact ⟨hc, (Option.some.inj h).symm⟩

theorem stepZone_misc (sinQ : ℚ → ℚ) (t i : ℕ) (zone : String) (r : ZoneRand)
    (st st' : SimState) (h : stepZone sinQ t i zone r st = some st') :
    MiscEq st st' := by
  obtain ⟨base, active, st1, eff, st2, _, _, hi, he, hp⟩ := stepZone_inv _ _ _ _ _ _ _ h
  have m1 : MiscEq st st1 := by
    rcases injectStep_cases _ _ _ _ _ hi with ⟨_, rfl⟩ | ⟨_, rfl⟩
    · exact miscEq_refl _
    · exact ⟨rfl, rfl, rfl, rfl, rfl, rfl, rfl, rfl⟩
  have m2 : MiscEq st1 st2 := by
    rcases effectResolve_inv _ _ _ _ _ he with rfl | rfl
    · exact miscEq_refl _
    · exact ⟨rfl, rfl, rfl, rfl, rfl, rfl, rfl, rfl⟩
  have m3 : MiscEq st2 st' := by
    obtain ⟨lp, lf, _, _, rfl⟩ := pushHist_inv _ _ _ _ _ hp
    exact ⟨rfl, rfl, rfl, rfl, rfl, rfl, rfl, rfl⟩
  exact miscEq_trans (miscEq_trans m1 m2) m3

theorem stepZone_frame (sinQ : ℚ → ℚ) (t i : ℕ) (zone : String) (r : ZoneRand)
    (st st' : SimState) (h : stepZone sinQ t i zone r st = some st')
    (k : String) (hk : k ≠ zone) :
    dget? st'.anomaly_active k = dget? st.anomaly_active k ∧
    dget? st'.anomaly_type k = dget? st.anomaly_type k ∧
    dget? st'.pressure_hist k = dget? st.pressure_hist k ∧
    dget? st'.flow_hist k = dget? st.flow_hist k := by
  obtain ⟨base, active, st1, eff, st2, _, _, hi, he, hp⟩ := stepZone_inv _ _ _ _ _ _ _ h
  have f1 : dget? st1.anomaly_active k = dget? st.anomaly_active k ∧
      dget? st1.anomaly_type k = dget? st.anomaly_type k ∧
      st1.pressure_hist = st.pressure_hist ∧ st1.flow_hist = st.flow_hist := by
    rcases injectStep_cases _ _ _ _ _ hi with ⟨_, rfl⟩ | ⟨_, rfl⟩
    · exact ⟨rfl, rfl, rfl, rfl⟩
    · exact ⟨dget?_dset_ne _ _ _ _ hk, dget?_dset_ne _ _ _ _ hk, rfl, rfl⟩
  have f2 : dget? st2.anomaly_active k = dget? st1.anomaly_active k ∧
      dget? st2.anomaly_type k = dget? st1.anomaly_type k ∧
      st2.pressure_hist = st1.pressure_hist ∧ st2.flow_hist = st1.flow_hist := by
    rcases effectResolve_inv _ _ _ _ _ he with rfl | rfl
    · exact ⟨rfl, rfl, rfl, rfl⟩
    · exact ⟨dget?_dset_ne _ _ _ _ hk, dget?_dset_ne _ _ _ _ hk, rfl, rfl⟩
  obtain ⟨lp, lf, _, _, rfl⟩ := pushHist_inv _ _ _ _ _ hp
  refine ⟨?_, ?_, ?_, ?_⟩
  · exact f2.1.trans f1.1
  · exact f2.2.1.trans f1.2.1
  · show dget? (dset st2.pressure_hist zone _) k = _
    rw [dget?_dset_ne _ _ _ _ hk, f2.2.2.1, f1.2.2.1]
  · show dget? (dset st2.flow_hist zone _) k = _
    rw [dget?_dset_ne _ _ _ _ hk, f2.2.2.2, f1.2.2.2]

theorem stepZone_hist (sinQ : ℚ → ℚ) (t i : ℕ) (zone : String) (r : ZoneRand)
    (st st' : SimState) (h : stepZone sinQ t i zone r st = some st') :
    ∃ lp x lf y, dget? st.pressure_hist zone = some lp ∧ 3/10 ≤ x ∧
      dget? st'.pressure_hist zone = some (dqAppend 120 lp x) ∧
      dget? st.flow_hist zone = some lf ∧ 1/2 ≤ y ∧
      dget? st'.flow_hist zone = some (dqAppend 120 lf y) := by
  obtain ⟨base, active, st1, eff, st2, _, _, hi, he, hp⟩ := stepZone_inv _ _ _ _ _ _ _ h
  have f1 : st1.pressure_hist = st.pressure_hist ∧ st1.flow_hist = st.flow_hist := by
    rcases injectStep_cases _ _ _ _ _ hi with ⟨_, rfl⟩ | ⟨_, rfl⟩ <;> exact ⟨rfl, rfl⟩
  have f2 : st2.pressure_hist = st1.pressure_hist ∧ st2.flow_hist = st1.flow_hist := by
    rcases effectResolve_inv _ _ _ _ _ he with rfl | rfl <;> exact ⟨rfl, rfl⟩
  obtain ⟨lp, lf, hlp, hlf, rfl⟩ := pushHist_inv _ _ _ _ _ hp
  refine ⟨lp, pyRound (pressureOf sinQ t base r.noise eff) 3, lf,
    pyRound (flowOf (pressureOf sinQ t base r.noise eff) base r.flowUniform) 2,
    ?_, ?_, ?_, ?_, ?_, ?_⟩
  · rw [← f1.1, ← f2.1]; exact hlp
  · exact pyRound_ge_pressure _ (le_max_left _ _)
  · show dget? (dset st2.pressure_hist zone _) zone = _
    rw [dget?_dset_self]
  · rw [← f1.2, ← f2.2]; exact hlf
  · exact pyRound_ge_flow _ (le_max_left _ _)
  · show dget? (dset st2.flow_hist zone _) zone = _
    rw [dget?_dset_self]

theorem stepZone_alerts (sinQ : ℚ → ℚ) (t i : ℕ) (zone : String) (r : ZoneRand)
    (st st' : SimState) (h : stepZone sinQ t i zone r st = some st') :
    ∃ active, dget? st.anomaly_active zone = some active ∧
      ((active = false ∧ r.injectRoll < 3/1000) →
        st'.total_alerts = st.total_alerts + 1 ∧
        ∃ e, st'.alerts =
          if 50 < (e :: st.alerts).length then (e :: st.alerts).dropLast
          else e :: st.alerts) ∧
      (¬(active = false ∧ r.injectRoll < 3/1000) →
        st'.total_alerts = st.total_alerts ∧ st'.alerts = st.alerts) := by
  obtain ⟨base, active, st1, eff, st2, _, ha, hi, he, hp⟩ := stepZone_inv _ _ _ _ _ _ _ h
  have e2 : st2.alerts = st1.alerts ∧ st2.total_alerts = st1.total_alerts := by
    rcases effectResolve_inv _ _ _ _ _ he with rfl | rfl <;> exact ⟨rfl, rfl⟩
  have e3 : st'.alerts = st2.alerts ∧ st'.total_alerts = st2.total_alerts := by
    obtain ⟨lp, lf, _, _, rfl⟩ := pushHist_inv _ _ _ _ _ hp
    exact ⟨rfl, rfl⟩
  refine ⟨active, ha, ?_, ?_⟩
  · intro hc
    rcases injectStep_cases _ _ _ _ _ hi with ⟨hnc, _⟩ | ⟨_, rfl⟩
    · exact absurd hc hnc
    · refine ⟨?_, newAlert r.ts zone (some (chooseType r.injectChoice)), ?_⟩
      · rw [e3.2, e2.2, add_alert_total]
      · rw [e3.1, e2.1, add_alert_alerts]
  · intro hc
    rcases injectStep_cases _ _ _ _ _ hi with ⟨_, rfl⟩ | ⟨hcc, _⟩
    · exact ⟨e3.2.trans e2.2, e3.1.trans e2.1⟩
    · exact absurd hcc hc

theorem stepZone_anomaly (sinQ : ℚ → ℚ) (t i : ℕ) (zone : String) (r : ZoneRand)
    (st st' : SimState) (h : stepZone sinQ t i zone r st = some st') :
    (dget? st'.anomaly_active zone = some false ∧
      dget? st'.anomaly_type zone = some none) ∨
    (∃ ty, dget? st'.anomaly_active zone = some true ∧
      dget? st'.anomaly_type zone = some (some ty)) ∨
    (dget? st'.anomaly_active zone = dget? st.anomaly_active zone ∧
      dget? st'.anomaly_type zone = dget? st.anomaly_type zone) := by
  obtain ⟨base, active, st1, eff, st2, _, ha, hi, he, hp⟩ := stepZone_inv _ _ _ _ _ _ _ h
  have e3 : dget? st'.anomaly_active zone = dget? st2.anomaly_active zone ∧
      dget? st'.anomaly_type zone = dget? st2.anomaly_type zone := by
    obtain ⟨lp, lf, _, _, rfl⟩ := pushHist_inv _ _ _ _ _ hp
    exact ⟨rfl, rfl⟩
  rcases effectResolve_inv _ _ _ _ _ he with rfl | hres
  · rcases injectStep_cases _ _ _ _ _ hi with ⟨_, rfl⟩ | ⟨_, rfl⟩
    · right; right
      exact e3
    · right; left
      refine ⟨chooseType r.injectChoice, ?_, ?_⟩
      · rw [e3.1]
        show dget? (dset st.anomaly_active zone true) zone = _
        rw [dget?_dset_self]
      · rw [e3.2]
        show dget? (dset st.anomaly_type zone (some (chooseType r.injectChoice))) zone = _
        rw [dget?_dset_self]
  · left
    subst hres
    refine ⟨?_, ?_⟩
    · rw [e3.1]
      show dget? (dset st1.anomaly_active zone false) zone = _
      rw [dget?_dset_self]
    · rw [e3.2]
      show dget? (dset st1.anomaly_type zone none) zone = _
      rw [dget?_dset_self]

theorem trim_eq_take (e : Alert) (l : List Alert) (h : l.length ≤ 50) :
    (if 50 < (e :: l).length then (e :: l).dropLast else e :: l) = (e :: l).take 50 := by
  rcases Nat.lt_or_ge l.length 50 with hlt | hge
  · rw [if_neg (by simp; omega), List.take_of_length_le (by simp; omega)]
  · have h50 : l.length = 50 := le_antisymm h hge
    rw [if_pos (by simp [h50]), List.dropLast_eq_take]
    simp [h50]

theorem stepZonesAux_misc (sinQ : ℚ → ℚ) (t : ℕ) (zr : ℕ → ZoneRand)
    (ps : List (ℕ × String)) :
    ∀ st st', stepZonesAux sinQ t zr ps st = some st' → MiscEq st st' := by
  induction ps with
  | nil =>
    intro st st' h
    obtain rfl := Option.some.inj h
    exact miscEq_refl _
  | cons p rest ih =>
    intro st st' h
    unfold stepZonesAux at h
    cases hz : stepZone sinQ t p.1 p.2 (zr p.1) st with
    | none => rw [hz] at h; simp only [] at h; exact Option.noConfusion h
    | some stA =>
      rw [hz] at h
      simp only [] at h
      exact miscEq_trans (stepZone_misc _ _ _ _ _ _ _ hz) (ih stA st' h)

theorem stepZonesAux_frame (sinQ : ℚ → ℚ) (t : ℕ) (zr : ℕ → ZoneRand)
    (ps : List (ℕ × String)) :
    ∀ st st', stepZonesAux sinQ t zr ps st = some st' →
    ∀ k, (∀ p ∈ ps, p.2 ≠ k) →
    dget? st'.anomaly_active k = dget? st.anomaly_active k ∧
    dget? st'.anomaly_type k = dget? st.anomaly_type k ∧
    dget? st'.pressure_hist k = dget? st.pressure_hist k ∧
    dget? st'.flow_hist k = dget? st.flow_hist k := by
  induction ps with
  | nil =>
    intro st st' h k _
    obtain rfl := Option.some.inj h
    exact ⟨rfl, rfl, rfl, rfl⟩
  | cons p rest ih =>
    intro st st' h k hk
    unfold stepZonesAux at h
    cases hz : stepZone sinQ t p.1 p.2 (zr p.1) st with
    | none => rw [hz] at h; simp only [] at h; exact Option.noConfusion h
    | some stA =>
      rw [hz] at h
      simp only [] at h
      have hkp : k ≠ p.2 := fun hc => hk p (List.mem_cons_self _ _) hc.symm
      have f1 := stepZone_frame _ _ _ _ _ _ _ hz k hkp
      have f2 := ih stA st' h k (fun q hq => hk q (List.mem_cons_of_mem _ hq))
      exact ⟨f2.1.trans f1.1, f2.2.1.trans f1.2.1,
        f2.2.2.1.trans f1.2.2.1, f2.2.2.2.trans f1.2.2.2⟩

theorem stepZonesAux_hist (sinQ : ℚ → ℚ) (t : ℕ) (zr : ℕ → ZoneRand)
    (ps : List (ℕ × String)) :
    ∀ st st', stepZonesAux sinQ t zr ps st = some st' →
    (ps.map Prod.snd).Nodup →
    ∀ p ∈ ps, ∃ lp x lf y, dget? st.pressure_hist p.2 = some lp ∧ 3/10 ≤ x ∧
      dget? st'.pressure_hist p.2 = some (dqAppend 120 lp x) ∧
      dget? st.flow_hist p.2 = some lf ∧ 1/2 ≤ y ∧
      dget? st'.flow_hist p.2 = some (dqAppend 120 lf y) := by
  induction ps with
  | nil => intro st st' h _ p hp; cases hp
  | cons q rest ih =>
    intro st st' h hnd p hp
    unfold stepZonesAux at h
    cases hz : stepZone sinQ t q.1 q.2 (zr q.1) st with
    | none => rw [hz] at h; simp only [] at h; exact Option.noConfusion h
    | some stA =>
      rw [hz] at h
      simp only [] at h
      rw [List.map_cons, List.nodup_cons] at hnd
      rcases List.mem_cons.mp hp with rfl | hpr
      · obtain ⟨lp, x, lf, y, h1, h2, h3, h4, h5, h6⟩ :=
          stepZone_hist _ _ _ _ _ _ _ hz
        have hfr := stepZonesAux_frame _ _ _ _ _ _ h p.2
          (fun q' hq' hc => hnd.1 (hc ▸ List.mem_map_of_mem Prod.snd hq'))
        exact ⟨lp, x, lf, y, h1, h2, hfr.2.2.1.trans h3, h4, h5, hfr.2.2.2.trans h6⟩
      · have hne : p.2 ≠ q.2 := by
          intro hc
          exact hnd.1 (hc ▸ List.mem_map_of_mem Prod.snd hpr)
        have f1 := stepZone_frame _ _ _ _ _ _ _ hz p.2 hne
        obtain ⟨lp, x, lf, y, h1, h2, h3, h4, h5, h6⟩ := ih stA st' h hnd.2 p hpr
        exact ⟨lp, x, lf, y, f1.2.2.1 ▸ h1, h2, h3, f1.2.2.2 ▸ h4, h5, h6⟩

theorem injectsP_congr (st stA : SimState) (zr : ℕ → ZoneRand) (p : ℕ × String)
    (h : dget? stA.anomaly_active p.2 = dget? st.anomaly_active p.2) :
    injectsP stA zr p = injectsP st zr p := by
  unfold injectsP
  rw [h]

theorem injectsP_true (st : SimState) (zr : ℕ → ZoneRand) (p : ℕ × String)
    (active : Bool) (ha : dget? st.anomaly_active p.2 = some active) :
    injectsP st zr p = true ↔ (active = false ∧ (zr p.1).injectRoll < 3/1000) := by
  unfold injectsP
  rw [ha]
  constructor
  · intro h
    have h1 := (Bool.and_eq_true _ _).mp h
    exact ⟨Option.some.inj (of_decide_eq_true h1.1), of_decide_eq_true h1.2⟩
  · intro ⟨h1, h2⟩
    subst h1
    exact (Bool.and_eq_true _ _).mpr ⟨decide_eq_true rfl, decide_eq_true h2⟩

theorem stepZonesAux_alerts (sinQ : ℚ → ℚ) (t : ℕ) (zr : ℕ → ZoneRand)
    (ps : List (ℕ × String)) :
    ∀ st st', stepZonesAux sinQ t zr ps st = some st' →
    (ps.map Prod.snd).Nodup → st.alerts.length ≤ 50 →
    st'.total_alerts = st.total_alerts + (ps.filter (injectsP st zr)).length ∧
    ∃ evs : List Alert, evs.length = (ps.filter (injectsP st zr)).length ∧
      st'.alerts = (evs ++ st.alerts).take 50 := by
  induction ps with
  | nil =>
    intro st st' h _ hlen
    obtain rfl := Option.some.inj h
    refine ⟨by simp [List.filter], [], by simp [List.filter], ?_⟩
    rw [List.nil_append, List.take_of_length_le hlen]
  | cons q rest ih =>
    intro st st' h hnd hlen
    unfold stepZonesAux at h
    cases hz : stepZone sinQ t q.1 q.2 (zr q.1) st with
    | none => rw [hz] at h; simp only [] at h; exact Option.noConfusion h
    | some stA =>
      rw [hz] at h
      simp only [] at h
      rw [List.map_cons, List.nodup_cons] at hnd
      obtain ⟨active, ha, hyes, hno⟩ := stepZone_alerts _ _ _ _ _ _ _ hz
      have hcongr : rest.filter (injectsP stA zr) = rest.filter (injectsP st zr) := by
        apply List.filter_congr
        intro p hp
        apply injectsP_congr
        have hne : p.2 ≠ q.2 := by
          intro hc
          exact hnd.1 (hc ▸ List.mem_map_of_mem Prod.snd hp)
        exact (stepZone_frame _ _ _ _ _ _ _ hz p.2 hne).1
      by_cases hc : active = false ∧ (zr q.1).injectRoll < 3/1000
      · obtain ⟨htot, e, halt⟩ := hyes hc
        rw [trim_eq_take e st.alerts hlen] at halt
        have hlenA : stA.alerts.length ≤ 50 := by
          rw [halt]
          simp
        obtain ⟨htot', evs', hlen', halt'⟩ := ih stA st' h hnd.2 hlenA
        have hq : injectsP st zr q = true := (injectsP_true st zr q active ha).mpr hc
        rw [List.filter_cons_of_pos hq]
        constructor
        · rw [htot', hcongr, htot]
          simp only [List.length_cons]
          omega
        · refine ⟨evs' ++ [e], ?_, ?_⟩
          · rw [List.length_append, hlen', hcongr]
            simp
          · rw [halt', halt, take_append_take, List.append_assoc, List.singleton_append]
      · obtain ⟨htot, halt⟩ := hno hc
        have hlenA : stA.alerts.length ≤ 50 := by rw [halt]; exact hlen
        obtain ⟨htot', evs', hlen', halt'⟩ := ih stA st' h hnd.2 hlenA
        have hq : injectsP st zr q = false := by
          rcases Bool.eq_false_or_eq_true (injectsP st zr q) with htr | hf
          · exact absurd ((injectsP_true st zr q active ha).mp htr) hc
          · exact hf
        rw [List.filter_cons_of_neg (by simp [hq])]
        constructor
        · rw [htot', hcongr, htot]
        · refine ⟨evs', ?_, ?_⟩
          · rw [hlen', hcongr]
          · rw [halt', halt]

theorem stepZone_keys (sinQ : ℚ → ℚ) (t i : ℕ) (zone : String) (r : ZoneRand)
    (st st' : SimState) (h : stepZone sinQ t i zone r st = some st') (k : String) :
    ((dget? st.anomaly_active k).isSome → (dget? st'.anomaly_active k).isSome) ∧
    ((dget? st.anomaly_type k).isSome → (dget? st'.anomaly_type k).isSome) := by
  by_cases hk : k = zone
  · subst hk
    rcases stepZone_anomaly _ _ _ _ _ _ _ h with ⟨h1, h2⟩ | ⟨ty, h1, h2⟩ | ⟨h1, h2⟩
    · exact ⟨fun _ => by rw [h1]; rfl, fun _ => by rw [h2]; rfl⟩
    · exact ⟨fun _ => by rw [h1]; rfl, fun _ => by rw [h2]; rfl⟩
    · rw [h1, h2]
      exact ⟨id, id⟩
  · have f := stepZone_frame _ _ _ _ _ _ _ h k hk
    rw [f.1, f.2.1]
    exact ⟨id, id⟩

theorem stepZone_coherent (sinQ : ℚ → ℚ) (t i : ℕ) (zone : String) (r : ZoneRand)
    (st st' : SimState) (h : stepZone sinQ t i zone r st = some st') (k : String)
    (hco : CoherentAt st k) : CoherentAt st' k := by
  by_cases hk : k = zone
  · subst hk
    rcases stepZone_anomaly _ _ _ _ _ _ _ h with ⟨h1, h2⟩ | ⟨ty, h1, h2⟩ | ⟨h1, h2⟩
    · unfold CoherentAt
      rw [h1, h2]
      simp
    · unfold CoherentAt
      rw [h1, h2]
      simp
    · unfold CoherentAt at hco ⊢
      rw [h1, h2]
      exact hco
  · have f := stepZone_frame _ _ _ _ _ _ _ h k hk
    unfold CoherentAt at hco ⊢
    rw [f.1, f.2.1]
    exact hco

theorem stepZonesAux_keys (sinQ : ℚ → ℚ) (t : ℕ) (zr : ℕ → ZoneRand)
    (ps : List (ℕ × String)) :
    ∀ st st', stepZonesAux sinQ t zr ps st = some st' → ∀ k,
    ((dget? st.anomaly_active k).isSome → (dget? st'.anomaly_active k).isSome) ∧
    ((dget? st.anomaly_type k).isSome → (dget? st'.anomaly_type k).isSome) := by
  induction ps with
  | nil =>
    intro st st' h k
    obtain rfl := Option.some.inj h
    exact ⟨id, id⟩
  | cons p rest ih =>
    intro st st' h k
    unfold stepZonesAux at h
    cases hz : stepZone sinQ t p.1 p.2 (zr p.1) st with
    | none => rw [hz] at h; simp only [] at h; exact Option.noConfusion h
    | some stA =>
      rw [hz] at h
      simp only [] at h
      have k1 := stepZone_keys _ _ _ _ _ _ _ hz k
      have k2 := ih stA st' h k
      exact ⟨fun hs => k2.1 (k1.1 hs), fun hs => k2.2 (k1.2 hs)⟩

theorem stepZonesAux_coherent (sinQ : ℚ → ℚ) (t : ℕ) (zr : ℕ → ZoneRand)
    (ps : List (ℕ × String)) :
    ∀ st st', stepZonesAux sinQ t zr ps st = some st' → ∀ k,
    CoherentAt st k → CoherentAt st' k := by
  induction ps with
  | nil =>
    intro st st' h k hco
    obtain rfl := Option.some.inj h
    exact hco
  | cons p rest ih =>
    intro st st' h k hco
    unfold stepZonesAux at h
    cases hz : stepZone sinQ t p.1 p.2 (zr p.1) st with
    | none => rw [hz] at h; simp only [] at h; exact Option.noConfusion h
    | some stA =>
      rw [hz] at h
      simp only [] at h
      exact ih stA st' h k (stepZone_coherent _ _ _ _ _ _ _ hz k hco)

theorem zones_enum_nodup : ((ZONES.enum).map Prod.snd).Nodup := by decide

theorem exists_enum_of_mem_zones (z : String) (hz : z ∈ ZONES) :
    ∃ p, p ∈ ZONES.enum ∧ p.2 = z := by
  fin_cases hz
  · exact ⟨(0, "Zone A (Central)"), by decide, rfl⟩
  · exact ⟨(1, "Zone B (North)"), by decide, rfl⟩
  · exact ⟨(2, "Zone C (Elevated)"), by decide, rfl⟩
  · exact ⟨(3, "Zone D (Tail-End)"), by decide, rfl⟩

theorem countActiveAux_congr (st st' : SimState)
    (h : ∀ k, dget? st'.anomaly_active k = dget? st.anomaly_active k) :
    ∀ (l : List String) (n : ℕ), countActiveAux st' l n = countActiveAux st l n := by
  intro l
  induction l with
  | nil => intro n; rfl
  | cons z rest ih =>
    intro n
    unfold countActiveAux
    rw [h z]
    cases dget? st.anomaly_active z with
    | none => rfl
    | some b => exact ih _

theorem step_inv (sinQ : ℚ → ℚ) (o : TickRand) (st st' : SimState)
    (h : step sinQ o st = some st') :
    ∃ st1, stepZonesAux sinQ (st.tick + 1) o.zr ZONES.enum
        { st with tick := st.tick + 1 } = some st1 ∧
      (((st.tick + 1) % 10 ≠ 0 ∧ st' = st1) ∨
       ((st.tick + 1) % 10 = 0 ∧ ∃ cnt, countActive st1 = some cnt ∧
         st' = { st1 with
           nrw_percent := max 10 (min 35 (st1.nrw_percent + o.nrwGauss)),
           energy_kwh := st1.energy_kwh + o.energyUniform,
           uptime_pct := if cnt = 0 then 100
                         else max 90 (100 - (cnt : ℚ) * (5/2)) })) := by
  unfold step at h
  simp only [] at h
  cases hz : stepZonesAux sinQ (st.tick + 1) o.zr ZONES.enum { st with tick := st.tick + 1 } with
  | none => rw [hz] at h; simp only [] at h; exact Option.noConfusion h
  | some st1 =>
    rw [hz] at h
    simp only [] at h
    refine ⟨st1, rfl, ?_⟩
    by_cases hmod : (st.tick + 1) % 10 = 0
    · right
      rw [if_pos hmod] at h
      cases hc : countActive st1 with
      | none => rw [hc] at h; simp only [] at h; exact Option.noConfusion h
      | some cnt =>
        rw [hc] at h
        simp only [] at h
        exact ⟨hmod, cnt, rfl, (Option.some.inj h).symm⟩
    · left
      rw [if_neg hmod] at h
      exact ⟨hmod, (Option.some.inj h).symm⟩

theorem step_hist (sinQ : ℚ → ℚ) (o : TickRand) (st st' : SimState)
    (h : step sinQ o st = some st') (z : String) (hz : z ∈ ZONES) :
    ∃ lp x lf y, dget? st.pressure_hist z = some lp ∧ 3/10 ≤ x ∧
      dget? st'.pressure_hist z = some (dqAppend 120 lp x) ∧
      dget? st.flow_hist z = some lf ∧ 1/2 ≤ y ∧
      dget? st'.flow_hist z = some (dqAppend 120 lf y) := by
  obtain ⟨st1, hfold, hrest⟩ := step_inv _ _ _ _ h
  obtain ⟨p, hp, rfl⟩ := exists_enum_of_mem_zones z hz
  obtain ⟨lp, x, lf, y, h1, h2, h3, h4, h5, h6⟩ :=
    stepZonesAux_hist _ _ _ _ _ _ hfold zones_enum_nodup p hp
  have hpost : dget? st'.pressure_hist p.2 = dget? st1.pressure_hist p.2 ∧
      dget? st'.flow_hist p.2 = dget? st1.flow_hist p.2 := by
    rcases hrest with ⟨_, rfl⟩ | ⟨_, cnt, _, rfl⟩ <;> exact ⟨rfl, rfl⟩
  exact ⟨lp, x, lf, y, h1, h2, hpost.1.trans h3, h4, h5, hpost.2.trans h6⟩

theorem step_alerts (sinQ : ℚ → ℚ) (o : TickRand) (st st' : SimState)
    (h : step sinQ o st = some st') (hlen : st.alerts.length ≤ 50) :
    st'.total_alerts = st.total_alerts + injCount o st ∧
    ∃ evs : List Alert, evs.length = injCount o st ∧
      st'.alerts = (evs ++ st.alerts).take 50 := by
  obtain ⟨st1, hfold, hrest⟩ := step_inv _ _ _ _ h
  have ha := stepZonesAux_alerts _ _ _ _ _ _ hfold zones_enum_nodup hlen
  have hpost : st'.alerts = st1.alerts ∧ st'.total_alerts = st1.total_alerts := by
    rcases hrest with ⟨_, rfl⟩ | ⟨_, cnt, _, rfl⟩ <;> exact ⟨rfl, rfl⟩
  obtain ⟨htot, evs, hlen', halt⟩ := ha
  refine ⟨?_, evs, hlen', ?_⟩
  · rw [hpost.2, htot]
    rfl
  · rw [hpost.1, halt]

theorem step_metrics (sinQ : ℚ → ℚ) (o : TickRand) (st st' : SimState)
    (h : step sinQ o st = some st') :
    st'.tick = st.tick + 1 ∧
    (st'.tick % 10 ≠ 0 →
      st'.nrw_percent = st.nrw_percent ∧ st'.energy_kwh = st.energy_kwh ∧
      st'.uptime_pct = st.uptime_pct) ∧
    (st'.tick % 10 = 0 →
      st'.nrw_percent = max 10 (min 35 (st.nrw_percent + o.nrwGauss)) ∧
      st'.energy_kwh = st.energy_kwh + o.energyUniform ∧
      ∃ cnt, countActive st' = some cnt ∧
        st'.uptime_pct = (if cnt = 0 then 100 else max 90 (100 - (cnt : ℚ) * (5/2)))) := by
  obtain ⟨st1, hfold, hrest⟩ := step_inv _ _ _ _ h
  have hm := stepZonesAux_misc _ _ _ _ _ _ hfold
  rcases hrest with ⟨hmod, rfl⟩ | ⟨hmod, cnt, hcnt, rfl⟩
  · refine ⟨hm.2.1, fun _ => ⟨hm.2.2.2.1, hm.2.2.2.2.1, hm.2.2.2.2.2.1⟩, fun hc => ?_⟩
    rw [hm.2.1] at hc
    exact absurd hc hmod
  · have htick : st1.tick = st.tick + 1 := hm.2.1
    refine ⟨htick, fun hc => ?_, fun _ => ?_⟩
    · have hc' : st1.tick % 10 ≠ 0 := hc
      rw [htick] at hc'
      exact absurd hmod hc'
    · refine ⟨?_, ?_, cnt, ?_, rfl⟩
      · show max 10 (min 35 (st1.nrw_percent + o.nrwGauss)) = _
        rw [show st1.nrw_percent = st.nrw_percent from hm.2.2.2.1]
      · show st1.energy_kwh + o.energyUniform = _
        rw [show st1.energy_kwh = st.energy_kwh from hm.2.2.2.2.1]
      · show countActiveAux _ ZONES 0 = some cnt
        exact (countActiveAux_congr st1 _ (fun k => rfl) ZONES 0).trans hcnt

theorem step_misc2 (sinQ : ℚ → ℚ) (o : TickRand) (st st' : SimState)
    (h : step sinQ o st = some st') :
    st'.running = st.running ∧ st'.history_len = st.history_len ∧
    st'.pump_status = st.pump_status ∧ st'.valve_status = st.valve_status := by
  obtain ⟨st1, hfold, hrest⟩ := step_inv _ _ _ _ h
  have hm := stepZonesAux_misc _ _ _ _ _ _ hfold
  have hpost : st'.running = st1.running ∧ st'.history_len = st1.history_len ∧
      st'.pump_status = st1.pump_status ∧ st'.valve_status = st1.valve_status := by
    rcases hrest with ⟨_, rfl⟩ | ⟨_, cnt, _, rfl⟩ <;> exact ⟨rfl, rfl, rfl, rfl⟩
  exact ⟨hpost.1.trans hm.1, hpost.2.1.trans hm.2.2.1,
    hpost.2.2.1.trans hm.2.2.2.2.2.2.1, hpost.2.2.2.trans hm.2.2.2.2.2.2.2⟩

theorem step_keys (sinQ : ℚ → ℚ) (o : TickRand) (st st' : SimState)
    (h : step sinQ o st = some st') (k : String) :
    ((dget? st.anomaly_active k).isSome → (dget? st'.anomaly_active k).isSome) ∧
    ((dget? st.anomaly_type k).isSome → (dget? st'.anomaly_type k).isSome) := by
  obtain ⟨st1, hfold, hrest⟩ := step_inv _ _ _ _ h
  have hk := stepZonesAux_keys _ _ _ _ _ _ hfold k
  have hpost : dget? st'.anomaly_active k = dget? st1.anomaly_active k ∧
      dget? st'.anomaly_type k = dget? st1.anomaly_type k := by
    rcases hrest with ⟨_, rfl⟩ | ⟨_, cnt, _, rfl⟩ <;> exact ⟨rfl, rfl⟩
  rw [hpost.1, hpost.2]
  exact hk

theorem step_coherent (sinQ : ℚ → ℚ) (o : TickRand) (st st' : SimState)
    (h : step sinQ o st = some st') (k : String) (hco : CoherentAt st k) :
    CoherentAt st' k := by
  obtain ⟨st1, hfold, hrest⟩ := step_inv _ _ _ _ h
  have hc1 : CoherentAt st1 k := stepZonesAux_coherent _ _ _ _ _ _ hfold k hco
  have hpost : dget? st'.anomaly_active k = dget? st1.anomaly_active k ∧
      dget? st'.anomaly_type k = dget? st1.anomaly_type k := by
    rcases hrest with ⟨_, rfl⟩ | ⟨_, cnt, _, rfl⟩ <;> exact ⟨rfl, rfl⟩
  unfold CoherentAt at hc1 ⊢
  rw [hpost.1, hpost.2]
  exact hc1

theorem resolve_anomaly_at (st : SimState) (z : String) :
    dget? (resolve_anomaly st z).anomaly_active z = some false ∧
    dget? (resolve_anomaly st z).anomaly_type z = some none :=
  ⟨dget?_dset_self _ _ _, dget?_dset_self _ _ _⟩

theorem resolve_anomaly_ne (st : SimState) (z k : String) (hk : k ≠ z) :
    dget? (resolve_anomaly st z).anomaly_active k = dget? st.anomaly_active k ∧
    dget? (resolve_anomaly st z).anomaly_type k = dget? st.anomaly_type k :=
  ⟨dget?_dset_ne _ _ _ _ hk, dget?_dset_ne _ _ _ _ hk⟩

theorem resolve_anomaly_fields (st : SimState) (z : String) :
    (resolve_anomaly st z).running = st.running ∧
    (resolve_anomaly st z).tick = st.tick ∧
    (resolve_anomaly st z).history_len = st.history_len ∧
    (resolve_anomaly st z).pressure_hist = st.pressure_hist ∧
    (resolve_anomaly st z).flow_hist = st.flow_hist ∧
    (resolve_anomaly st z).alerts = st.alerts ∧
    (resolve_anomaly st z).total_alerts = st.total_alerts ∧
    (resolve_anomaly st z).nrw_percent = st.nrw_percent ∧
    (resolve_anomaly st z).energy_kwh = st.energy_kwh ∧
    (resolve_anomaly st z).uptime_pct = st.uptime_pct ∧
    (resolve_anomaly st z).pump_status = st.pump_status ∧
    (resolve_anomaly st z).valve_status = st.valve_status :=
  ⟨rfl, rfl, rfl, rfl, rfl, rfl, rfl, rfl, rfl, rfl, rfl, rfl⟩

theorem toggle_valve_none (st : SimState) (idx : ℤ)
    (hlen : st.valve_status.length = 4) (h : idx < -4 ∨ 3 < idx) :
    toggle_valve st idx = none := by
  unfold toggle_valve pyGet? pyIdx
  rw [hlen]
  rw [if_neg (by omega), if_neg (by omega)]
  rfl

theorem toggle_valve_inv (st : SimState) (idx : ℤ) (st' : SimState)
    (h : toggle_valve st idx = some st') :
    ∃ v, pyGet? st.valve_status idx = some v ∧
      st' = { st with valve_status := pySet st.valve_status idx (!v) } := by
  unfold toggle_valve at h
  cases hg : pyGet? st.valve_status idx with
  | none => rw [hg] at h; simp only [] at h; exact Option.noConfusion h
  | some v =>
    rw [hg] at h
    simp only [] at h
    exact ⟨v, rfl, (Option.some.inj h).symm⟩

theorem pySet_length {α : Type} (l : List α) (i : ℤ) (v : α) :
    (pySet l i v).length = l.length := by
  unfold pySet
  cases pyIdx l.length i with
  | none => rfl
  | some n => simp

theorem wf_init (fs : ℕ → ℚ) : WF (initState fs) := by
  constructor
  · intro z hz
    fin_cases hz <;> rfl
  · intro z hz
    fin_cases hz <;> rfl
  · intro z hz
    fin_cases hz
    · exact ⟨_, rfl, by simp⟩
    · exact ⟨_, rfl, by simp⟩
    · exact ⟨_, rfl, by simp⟩
    · exact ⟨_, rfl, by simp⟩
  · intro z hz
    fin_cases hz
    · exact ⟨_, rfl, by simp⟩
    · exact ⟨_, rfl, by simp⟩
    · exact ⟨_, rfl, by simp⟩
    · exact ⟨_, rfl, by simp⟩
  · simp [initState]
  · rfl
  · norm_num [initState]
  · norm_num [initState]
  · norm_num [initState]
  · norm_num [initState]

theorem wf_step (sinQ : ℚ → ℚ) (o : TickRand) (st st' : SimState)
    (h : step sinQ o st = some st') (hwf : WF st) : WF st' := by
  obtain ⟨htick, hnotten, hten⟩ := step_metrics _ _ _ _ h
  have hmisc := step_misc2 _ _ _ _ h
  constructor
  · intro z hz
    exact (step_keys _ _ _ _ h z).1 (hwf.keysA z hz)
  · intro z hz
    exact (step_keys _ _ _ _ h z).2 (hwf.keysT z hz)
  · intro z hz
    obtain ⟨lp, x, lf, y, h1, _, h3, _, _, _⟩ := step_hist _ _ _ _ h z hz
    obtain ⟨l, hl, hlen⟩ := hwf.histP z hz
    rw [hl] at h1
    obtain rfl := Option.some.inj h1
    exact ⟨_, h3, dqAppend_length _ _ hlen⟩
  · intro z hz
    obtain ⟨lp, x, lf, y, _, _, _, h4, _, h6⟩ := step_hist _ _ _ _ h z hz
    obtain ⟨l, hl, hlen⟩ := hwf.histF z hz
    rw [hl] at h4
    obtain rfl := Option.some.inj h4
    exact ⟨_, h6, dqAppend_length _ _ hlen⟩
  · obtain ⟨_, evs, _, halt⟩ := step_alerts _ _ _ _ h hwf.alerts_le
    rw [halt]
    simp [List.length_take]
  · rw [hmisc.2.2.2]
    exact hwf.valve_len
  · by_cases hmod : st'.tick % 10 = 0
    · rw [(hten hmod).1]
      exact le_max_left _ _
    · rw [(hnotten hmod).1]
      exact hwf.nrw_lb
  · by_cases hmod : st'.tick % 10 = 0
    · rw [(hten hmod).1]
      rw [max_le_iff]
      refine ⟨by norm_num, ?_⟩
      exact le_trans (min_le_left _ _) (by norm_num)
    · rw [(hnotten hmod).1]
      exact hwf.nrw_ub
  · by_cases hmod : st'.tick % 10 = 0
    · obtain ⟨_, _, cnt, _, hup⟩ := hten hmod
      rw [hup]
      split
      · norm_num
      · exact le_max_left _ _
    · rw [(hnotten hmod).2.2]
      exact hwf.up_lb
  · by_cases hmod : st'.tick % 10 = 0
    · obtain ⟨_, _, cnt, _, hup⟩ := hten hmod
      rw [hup]
      split
      · norm_num
      · rw [max_le_iff]
        refine ⟨by norm_num, ?_⟩
        have : (0 : ℚ) ≤ (cnt : ℚ) * (5/2) := by positivity
        linarith
    · rw [(hnotten hmod).2.2]
      exact hwf.up_ub

theorem wf_resolve (st : SimState) (z : String) (hwf : WF st) :
    WF (resolve_anomaly st z) := by
  constructor
  · intro k hk
    by_cases h : k = z
    · subst h
      rw [(resolve_anomaly_at st k).1]
      rfl
    · rw [(resolve_anomaly_ne st z k h).1]
      exact hwf.keysA k hk
  · intro k hk
    by_cases h : k = z
    · subst h
      rw [(resolve_anomaly_at st k).2]
      rfl
    · rw [(resolve_anomaly_ne st z k h).2]
      exact hwf.keysT k hk
  · exact hwf.histP
  · exact hwf.histF
  · exact hwf.alerts_le
  · exact hwf.valve_len
  · exact hwf.nrw_lb
  · exact hwf.nrw_ub
  · exact hwf.up_lb
  · exact hwf.up_ub

theorem wf_toggle (st : SimState) (idx : ℤ) (st' : SimState)
    (h : toggle_valve st idx = some st') (hwf : WF st) : WF st' := by
  obtain ⟨v, _, rfl⟩ := toggle_valve_inv _ _ _ h
  constructor
  · exact hwf.keysA
  · exact hwf.keysT
  · exact hwf.histP
  · exact hwf.histF
  · exact hwf.alerts_le
  · show (pySet st.valve_status idx (!v)).length = 4
    rw [pySet_length]
    exact hwf.valve_len
  · exact hwf.nrw_lb
  · exact hwf.nrw_ub
  · exact hwf.up_lb
  · exact hwf.up_ub

theorem wf_clear (st : SimState) (hwf : WF st) : WF (clear_alerts st) := by
  constructor
  · exact hwf.keysA
  · exact hwf.keysT
  · exact hwf.histP
  · exact hwf.histF
  · show ([] : List Alert).length ≤ 50
    simp
  · exact hwf.valve_len
  · exact hwf.nrw_lb
  · exact hwf.nrw_ub
  · exact hwf.up_lb
  · exact hwf.up_ub

theorem coherent_init (fs : ℕ → ℚ) : Coherent (initState fs) := by
  intro k
  unfold CoherentAt
  show Option.map (fun b => b) (dget? (ZONES.map (fun z => (z, false))) k) =
    Option.map Option.isSome (dget? (ZONES.map (fun z => (z, none))) k)
  simp only [ZONES, List.map_cons, List.map_nil, dget?]
  split_ifs <;> rfl

theorem coherent_resolve (st : SimState) (z : String) (hco : Coherent st) :
    Coherent (resolve_anomaly st z) := by
  intro k
  by_cases h : k = z
  · subst h
    unfold CoherentAt
    rw [(resolve_anomaly_at st k).1, (resolve_anomaly_at st k).2]
    rfl
  · unfold CoherentAt
    rw [(resolve_anomaly_ne st z k h).1, (resolve_anomaly_ne st z k h).2]
    exact hco k

/-- The global invariant carried through every reachable state. -/
def AppInv (a : AppState) : Prop := WF a.sim ∧ Coherent a.sim

theorem inv_applyOp (a a' : AppState) (op : Op) (h : applyOp a op = some a')
    (hinv : AppInv a) : AppInv a' := by
  unfold applyOp at h
  cases op with
  | tick sinQ o =>
    simp only [] at h
    by_cases hr : a.sim_running
    · rw [if_pos hr] at h
      cases hs : step sinQ o a.sim with
      | none => rw [hs] at h; exact Option.noConfusion h
      | some s =>
        rw [hs] at h
        simp only [Option.map_some'] at h
        obtain rfl := Option.some.inj h
        exact ⟨wf_step _ _ _ _ hs hinv.1,
          fun k => step_coherent _ _ _ _ hs k (hinv.2 k)⟩
    · rw [if_neg hr] at h
      obtain rfl := Option.some.inj h
      exact hinv
  | resolve z =>
    simp only [] at h
    obtain rfl := Option.some.inj h
    exact ⟨wf_resolve _ _ hinv.1, coherent_resolve _ _ hinv.2⟩
  | toggleValve i =>
    simp only [] at h
    cases ht : toggle_valve a.sim i with
    | none => rw [ht] at h; exact Option.noConfusion h
    | some s =>
      rw [ht] at h
      simp only [Option.map_some'] at h
      obtain rfl := Option.some.inj h
      refine ⟨wf_toggle _ _ _ ht hinv.1, fun k => ?_⟩
      obtain ⟨v, _, rfl⟩ := toggle_valve_inv _ _ _ ht
      exact hinv.2 k
  | toggleSim =>
    simp only [] at h
    obtain rfl := Option.some.inj h
    exact hinv
  | clearAlerts =>
    simp only [] at h
    obtain rfl := Option.some.inj h
    exact ⟨wf_clear _ hinv.1, fun k => hinv.2 k⟩

theorem reachable_inv (a : AppState) (h : Reachable a) : AppInv a := by
  induction h with
  | init fs => exact ⟨wf_init fs, coherent_init fs⟩
  | next op hr hvalid happly ih => exact inv_applyOp _ _ op happly ih

theorem stepZonesAux_total_mono (sinQ : ℚ → ℚ) (t : ℕ) (zr : ℕ → ZoneRand)
    (ps : List (ℕ × String)) :
    ∀ st st', stepZonesAux sinQ t zr ps st = some st' →
    st.total_alerts ≤ st'.total_alerts := by
  induction ps with
  | nil =>
    intro st st' h
    obtain rfl := Option.some.inj h
    exact le_refl _
  | cons p rest ih =>
    intro st st' h
    unfold stepZonesAux at h
    cases hz : stepZone sinQ t p.1 p.2 (zr p.1) st with
    | none => rw [hz] at h; simp only [] at h; exact Option.noConfusion h
    | some stA =>
      rw [hz] at h
      simp only [] at h
      obtain ⟨active, _, hyes, hno⟩ := stepZone_alerts _ _ _ _ _ _ _ hz
      have h1 : st.total_alerts ≤ stA.total_alerts := by
        by_cases hc : active = false ∧ (zr p.1).injectRoll < 3/1000
        · rw [(hyes hc).1]; omega
        · rw [(hno hc).1]
      exact le_trans h1 (ih stA st' h)

theorem step_total_mono (sinQ : ℚ → ℚ) (o : TickRand) (st st' : SimState)
    (h : step sinQ o st = some st') : st.total_alerts ≤ st'.total_alerts := by
  obtain ⟨st1, hfold, hrest⟩ := step_inv _ _ _ _ h
  have h0 := stepZonesAux_total_mono _ _ _ _ _ _ hfold
  have h1 : st.total_alerts ≤ st1.total_alerts := h0
  rcases hrest with ⟨_, rfl⟩ | ⟨_, cnt, _, rfl⟩
  · exact h1
  · exact h1

theorem step_energy (sinQ : ℚ → ℚ) (o : TickRand) (st st' : SimState)
    (h : step sinQ o st = some st') (hv : ValidTick o) :
    st.energy_kwh ≤ st'.energy_kwh := by
  obtain ⟨_, hnotten, hten⟩ := step_metrics _ _ _ _ h
  by_cases hmod : st'.tick % 10 = 0
  · rw [(hten hmod).2.1]
    have := hv.1
    linarith
  · rw [(hnotten hmod).2.1]

theorem coherent_applyOp (a a' : AppState) (op : Op) (h : applyOp a op = some a')
    (hco : Coherent a.sim) : Coherent a'.sim := by
  unfold applyOp at h
  cases op with
  | tick sinQ o =>
    simp only [] at h
    by_cases hr : a.sim_running
    · rw [if_pos hr] at h
      cases hs : step sinQ o a.sim with
      | none => rw [hs] at h; exact Option.noConfusion h
      | some s =>
        rw [hs] at h
        simp only [Option.map_some'] at h
        obtain rfl := Option.some.inj h
        exact fun k => step_coherent _ _ _ _ hs k (hco k)
    · rw [if_neg hr] at h
      obtain rfl := Option.some.inj h
      exact hco
  | resolve z =>
    simp only [] at h
    obtain rfl := Option.some.inj h
    exact coherent_resolve _ _ hco
  | toggleValve i =>
    simp only [] at h
    cases ht : toggle_valve a.sim i with
    | none => rw [ht] at h; exact Option.noConfusion h
    | some s =>
      rw [ht] at h
      simp only [Option.map_some'] at h
      obtain rfl := Option.some.inj h
      obtain ⟨v, _, rfl⟩ := toggle_valve_inv _ _ _ ht
      exact fun k => hco k
  | toggleSim =>
    simp only [] at h
    obtain rfl := Option.some.inj h
    exact hco
  | clearAlerts =>
    simp only [] at h
    obtain rfl := Option.some.inj h
    exact fun k => hco k

theorem applyOp_total_mono (a a' : AppState) (op : Op) (hne : op ≠ Op.clearAlerts)
    (h : applyOp a op = some a') : a.sim.total_alerts ≤ a'.sim.total_alerts := by
  unfold applyOp at h
  cases op with
  | tick sinQ o =>
    simp only [] at h
    by_cases hr : a.sim_running
    · rw [if_pos hr] at h
      cases hs : step sinQ o a.sim with
      | none => rw [hs] at h; exact Option.noConfusion h
      | some s =>
        rw [hs] at h
        simp only [Option.map_some'] at h
        obtain rfl := Option.some.inj h
        exact step_total_mono _ _ _ _ hs
    · rw [if_neg hr] at h
      obtain rfl := Option.some.inj h
      exact le_refl _
  | resolve z =>
    simp only [] at h
    obtain rfl := Option.some.inj h
    exact le_refl _
  | toggleValve i =>
    simp only [] at h
    cases ht : toggle_valve a.sim i with
    | none => rw [ht] at h; exact Option.noConfusion h
    | some s =>
      rw [ht] at h
      simp only [Option.map_some'] at h
      obtain rfl := Option.some.inj h
      obtain ⟨v, _, rfl⟩ := toggle_valve_inv _ _ _ ht
      exact le_refl _
  | toggleSim =>
    simp only [] at h
    obtain rfl := Option.some.inj h
    exact le_refl _
  | clearAlerts => exact absurd rfl hne

/-- A fixed flow-seed oracle used to build concrete states. -/
def fs0 : ℕ → ℚ := fun _ => 10

/-- A concrete stand-in for `math.sin` used on concrete runs. -/
def sinQ0 : ℚ → ℚ := fun _ => 0

/-- A concrete per-zone oracle: no injection, no auto-resolve. -/
def zr0 : ZoneRand :=
  { noise := 0, injectRoll := 1, injectChoice := 0, ts := "00:00:00",
    resolveRoll := 1, flowUniform := 12 }

/-- A concrete tick oracle built from `zr0`. -/
def o0 : TickRand := { zr := fun _ => zr0, nrwGauss := 0, energyUniform := 1/10 }

/-- The freshly initialised simulator state with flow seed `fs0`. -/
def st0 : SimState := initState fs0

theorem step0_isSome : (step sinQ0 o0 st0).isSome := by with_unfolding_all decide

/-- The state after one concrete tick of `st0`. -/
def st1w : SimState := (step sinQ0 o0 st0).get step0_isSome

theorem step0_eq : step sinQ0 o0 st0 = some st1w := (Option.some_get step0_isSome).symm

theorem stz0_isSome : (stepZone sinQ0 1 0 "Zone A (Central)" zr0 st0).isSome := by
  with_unfolding_all decide

/-- The state after the concrete per-zone body runs on Zone A. -/
def stz0 : SimState := (stepZone sinQ0 1 0 "Zone A (Central)" zr0 st0).get stz0_isSome

theorem stz0_eq : stepZone sinQ0 1 0 "Zone A (Central)" zr0 st0 = some stz0 :=
  (Option.some_get stz0_isSome).symm

/-- Claim C1 counterexample: `resolve_anomaly` on the unknown zone id "Zone X" is
not rejected — Python's `d[k] = v` silently inserts the key, so the command
returns normally (it is a total function) and the anomaly maps gain a fresh
entry that was absent before. -/
theorem claim1_counterexample :
    dget? (initState fs0).anomaly_active "Zone X" = none ∧
    dget? (resolve_anomaly (initState fs0) "Zone X").anomaly_active "Zone X" =
      some false ∧
    dget? (resolve_anomaly (initState fs0) "Zone X").anomaly_type "Zone X" =
      some none :=
  ⟨rfl, rfl, rfl⟩

/-- Claim C1 (amended): `toggle_valve` with an index outside the Python-valid
range `[-4, 3]` raises `IndexError` synchronously and mutates nothing, but
`resolve_anomaly` with an unknown zone id is accepted silently: it inserts an
inactive entry for that id into the two anomaly maps and leaves the four
configured zones' anomaly state, the histories, alerts, counters and valves
unchanged. -/
theorem claim1 (st : SimState) (idx : ℤ) (z : String)
    (hlen : st.valve_status.length = 4) (hidx : idx < -4 ∨ 3 < idx)
    (hz : z ∉ ZONES) :
    toggle_valve st idx = none ∧
    dget? (resolve_anomaly st z).anomaly_active z = some false ∧
    dget? (resolve_anomaly st z).anomaly_type z = some none ∧
    (∀ z' ∈ ZONES,
      dget? (resolve_anomaly st z).anomaly_active z' = dget? st.anomaly_active z' ∧
      dget? (resolve_anomaly st z).anomaly_type z' = dget? st.anomaly_type z') ∧
    (resolve_anomaly st z).pressure_hist = st.pressure_hist ∧
    (resolve_anomaly st z).flow_hist = st.flow_hist ∧
    (resolve_anomaly st z).alerts = st.alerts ∧
    (resolve_anomaly st z).total_alerts = st.total_alerts ∧
    (resolve_anomaly st z).valve_status = st.valve_status :=
  ⟨toggle_valve_none st idx hlen hidx, (resolve_anomaly_at st z).1,
    (resolve_anomaly_at st z).2,
    fun z' hz' => resolve_anomaly_ne st z z' (fun hc => hz (hc ▸ hz')),
    rfl, rfl, rfl, rfl, rfl⟩

theorem claim1_witness :
    toggle_valve st0 7 = none ∧
    dget? (resolve_anomaly st0 "Zone X").anomaly_active "Zone X" = some false ∧
    dget? (resolve_anomaly st0 "Zone X").anomaly_type "Zone X" = some none ∧
    (∀ z' ∈ ZONES,
      dget? (resolve_anomaly st0 "Zone X").anomaly_active z' =
        dget? st0.anomaly_active z' ∧
      dget? (resolve_anomaly st0 "Zone X").anomaly_type z' =
        dget? st0.anomaly_type z') ∧
    (resolve_anomaly st0 "Zone X").pressure_hist = st0.pressure_hist ∧
    (resolve_anomaly st0 "Zone X").flow_hist = st0.flow_hist ∧
    (resolve_anomaly st0 "Zone X").alerts = st0.alerts ∧
    (resolve_anomaly st0 "Zone X").total_alerts = st0.total_alerts ∧
    (resolve_anomaly st0 "Zone X").valve_status = st0.valve_status :=
  claim1 st0 7 "Zone X" (by decide) (by right; decide) (by decide)

/-- Claim C2: a zone's per-tick update appends exactly one alert event and
increments totalAlerts by exactly one iff that zone transitions from no anomaly
to an active anomaly in that tick, and appends nothing otherwise; over a whole
tick totalAlerts grows by exactly the number of transitioning zones, with the
new events pushed at the head of the log; a manual resolveAnomaly never touches
the log or the counter. -/
theorem claim2 :
    (∀ (sinQ : ℚ → ℚ) (o : TickRand) (st st' : SimState),
      step sinQ o st = some st' → st.alerts.length ≤ 50 →
      st'.total_alerts = st.total_alerts + injCount o st ∧
      ∃ evs : List Alert, evs.length = injCount o st ∧
        st'.alerts = (evs ++ st.alerts).take 50) ∧
    (∀ (sinQ : ℚ → ℚ) (t i : ℕ) (zone : String) (r : ZoneRand) (st st' : SimState),
      stepZone sinQ t i zone r st = some st' →
      ∃ active, dget? st.anomaly_active zone = some active ∧
        ((active = false ∧ r.injectRoll < 3/1000) →
          st'.total_alerts = st.total_alerts + 1 ∧
          ∃ e, st'.alerts =
            if 50 < (e :: st.alerts).length then (e :: st.alerts).dropLast
            else e :: st.alerts) ∧
        (¬(active = false ∧ r.injectRoll < 3/1000) →
          st'.total_alerts = st.total_alerts ∧ st'.alerts = st.alerts)) ∧
    (∀ (st : SimState) (zone : String),
      (resolve_anomaly st zone).alerts = st.alerts ∧
      (resolve_anomaly st zone).total_alerts = st.total_alerts) :=
  ⟨step_alerts, stepZone_alerts, fun _ _ => ⟨rfl, rfl⟩⟩

theorem claim2_witness :
    (st1w.total_alerts = st0.total_alerts + injCount o0 st0 ∧
      ∃ evs : List Alert, evs.length = injCount o0 st0 ∧
        st1w.alerts = (evs ++ st0.alerts).take 50) ∧
    (∃ active, dget? st0.anomaly_active "Zone A (Central)" = some active ∧
      ((active = false ∧ zr0.injectRoll < 3/1000) →
        stz0.total_alerts = st0.total_alerts + 1 ∧
        ∃ e, stz0.alerts =
          if 50 < (e :: st0.alerts).length then (e :: st0.alerts).dropLast
          else e :: st0.alerts) ∧
      (¬(active = false ∧ zr0.injectRoll < 3/1000) →
        stz0.total_alerts = st0.total_alerts ∧ stz0.alerts = st0.alerts)) ∧
    ((resolve_anomaly st0 "Zone B (North)").alerts = st0.alerts ∧
      (resolve_anomaly st0 "Zone B (North)").total_alerts = st0.total_alerts) :=
  ⟨claim2.1 sinQ0 o0 st0 st1w step0_eq (by decide),
    claim2.2.1 sinQ0 1 0 "Zone A (Central)" zr0 st0 stz0 stz0_eq,
    claim2.2.2 st0 "Zone B (North)"⟩

/-- Claim C3 counterexample: at initialization the flow buffer's elements equal
the round(uniform(8,14), 2) draw made for that zone, so two fresh simulators
disagree on the flow seed — it is a random value, not a configured per-zone
base value for the flow signal (no such constant exists in the program). -/
theorem claim3_counterexample :
    dget? (initState (fun _ => 8)).flow_hist "Zone A (Central)" =
      some (List.replicate 120 8) ∧
    dget? (initState (fun _ => 9)).flow_hist "Zone A (Central)" =
      some (List.replicate 120 9) ∧
    decide (List.replicate 120 (8 : ℚ) = List.replicate 120 (9 : ℚ)) = false := by
  refine ⟨?_, ?_, by with_unfolding_all decide⟩ <;> with_unfolding_all decide

/-- Claim C3 (amended): every history buffer holds exactly 120 elements at
initialization and after every tick, and each tick appends the newest sample
while evicting the oldest; at initialization every pressure element equals the
zone's basePressure, while every flow element equals the single random
round(uniform(8,14), 2) draw made for that zone, not a configured base value. -/
theorem claim3 :
    (∀ fs : ℕ → ℚ,
      (∀ p ∈ List.zip ZONES ZONE_BASE_PRESSURE,
        dget? (initState fs).pressure_hist p.1 = some (List.replicate 120 p.2)) ∧
      (∀ p ∈ ZONES.enum,
        dget? (initState fs).flow_hist p.2 =
          some (List.replicate 120 (pyRound (fs p.1) 2)))) ∧
    (∀ a : AppState, Reachable a → ∀ z ∈ ZONES,
      (∃ l, dget? a.sim.pressure_hist z = some l ∧ l.length = 120) ∧
      (∃ l, dget? a.sim.flow_hist z = some l ∧ l.length = 120)) ∧
    (∀ (sinQ : ℚ → ℚ) (o : TickRand) (st st' : SimState),
      step sinQ o st = some st' → ∀ z ∈ ZONES,
      (∀ l, dget? st.pressure_hist z = some l → l.length = 120 →
        ∃ x, dget? st'.pressure_hist z = some (l.drop 1 ++ [x]) ∧
          (l.drop 1 ++ [x]).length = 120) ∧
      (∀ l, dget? st.flow_hist z = some l → l.length = 120 →
        ∃ y, dget? st'.flow_hist z = some (l.drop 1 ++ [y]) ∧
          (l.drop 1 ++ [y]).length = 120)) := by
  refine ⟨?_, ?_, ?_⟩
  · intro fs
    constructor
    · intro p hp
      fin_cases hp <;> rfl
    · intro p hp
      fin_cases hp <;> rfl
  · intro a ha z hz
    exact ⟨(reachable_inv a ha).1.histP z hz, (reachable_inv a ha).1.histF z hz⟩
  · intro sinQ o st st' h z hz
    obtain ⟨lp, x, lf, y, h1, _, h3, h4, _, h6⟩ := step_hist _ _ _ _ h z hz
    constructor
    · intro l hl hlen
      rw [hl] at h1
      obtain rfl := Option.some.inj h1
      refine ⟨x, ?_, ?_⟩
      · rw [h3, dqAppend_of_length_eq _ _ hlen]
      · simp
        omega
    · intro l hl hlen
      rw [hl] at h4
      obtain rfl := Option.some.inj h4
      refine ⟨y, ?_, ?_⟩
      · rw [h6, dqAppend_of_length_eq _ _ hlen]
      · simp
        omega

theorem claim3_witness :
    dget? (initState fs0).pressure_hist "Zone A (Central)" =
      some (List.replicate 120 (38/10)) ∧
    ((∃ l, dget? (initApp fs0).sim.pressure_hist "Zone A (Central)" = some l ∧
        l.length = 120) ∧
      (∃ l, dget? (initApp fs0).sim.flow_hist "Zone A (Central)" = some l ∧
        l.length = 120)) ∧
    (∃ x, dget? st1w.pressure_hist "Zone A (Central)" =
      some ((List.replicate 120 (38/10 : ℚ)).drop 1 ++ [x]) ∧
      ((List.replicate 120 (38/10 : ℚ)).drop 1 ++ [x]).length = 120) :=
  ⟨(claim3.1 fs0).1 ("Zone A (Central)", 38/10) (by with_unfolding_all decide),
    claim3.2.1 (initApp fs0) (Reachable.init fs0) "Zone A (Central)" (by decide),
    (claim3.2.2 sinQ0 o0 st0 st1w step0_eq "Zone A (Central)" (by decide)).1
      (List.replicate 120 (38/10)) rfl (by simp)⟩

/-- Claim C4: on every tick, for every zone, the pressure sample stored in the
history (and reported as the current pressure) is at least 0.3 and the flow
sample is at least 0.5 — the floors are silent clamps applied inside the tick,
never errors. -/
theorem claim4 (sinQ : ℚ → ℚ) (o : TickRand) (st st' : SimState)
    (h : step sinQ o st = some st') (z : String) (hz : z ∈ ZONES) :
    ∃ p f, current_pressure st' z = some p ∧ 3/10 ≤ p ∧
      current_flow st' z = some f ∧ 1/2 ≤ f := by
  obtain ⟨lp, x, lf, y, _, h2, h3, _, h5, h6⟩ := step_hist _ _ _ _ h z hz
  refine ⟨x, y, ?_, h2, ?_, h5⟩
  · unfold current_pressure
    rw [h3]
    exact getLast?_dqAppend 120 (by norm_num) lp x
  · unfold current_flow
    rw [h6]
    exact getLast?_dqAppend 120 (by norm_num) lf y

theorem claim4_witness :
    ∃ p f, current_pressure st1w "Zone A (Central)" = some p ∧ 3/10 ≤ p ∧
      current_flow st1w "Zone A (Central)" = some f ∧ 1/2 ≤ f :=
  claim4 sinQ0 o0 st0 st1w step0_eq "Zone A (Central)" (by decide)

theorem applyOp_energy_mono (a a' : AppState) (op : Op) (hv : OpValid op)
    (h : applyOp a op = some a') : a.sim.energy_kwh ≤ a'.sim.energy_kwh := by
  unfold applyOp at h
  cases op with
  | tick sinQ o =>
    simp only [] at h
    by_cases hr : a.sim_running
    · rw [if_pos hr] at h
      cases hs : step sinQ o a.sim with
      | none => rw [hs] at h; exact Option.noConfusion h
      | some s =>
        rw [hs] at h
        simp only [Option.map_some'] at h
        obtain rfl := Option.some.inj h
        exact step_energy _ _ _ _ hs hv
    · rw [if_neg hr] at h
      obtain rfl := Option.some.inj h
      exact le_refl _
  | resolve z =>
    simp only [] at h
    obtain rfl := Option.some.inj h
    exact le_refl _
  | toggleValve i =>
    simp only [] at h
    cases ht : toggle_valve a.sim i with
    | none => rw [ht] at h; exact Option.noConfusion h
    | some s =>
      rw [ht] at h
      simp only [Option.map_some'] at h
      obtain rfl := Option.some.inj h
      obtain ⟨v, _, rfl⟩ := toggle_valve_inv _ _ _ ht
      exact le_refl _
  | toggleSim =>
    simp only [] at h
    obtain rfl := Option.some.inj h
    exact le_refl _
  | clearAlerts =>
    simp only [] at h
    obtain rfl := Option.some.inj h
    exact le_refl _

/-- Claim C5: the alert log never exceeds 50 events; `_add_alert` always bumps
totalAlerts by exactly one and pushes the new event at the head, trimming the
oldest event from the tail once the log would exceed 50 (so trimming never
affects the counter); totalAlerts never decreases under any tick or command
other than the explicit clear, which atomically zeroes it and empties the log. -/
theorem claim5 :
    (∀ a : AppState, Reachable a → a.sim.alerts.length ≤ 50) ∧
    (∀ (st : SimState) (ts zone : String) (ty : Option AType),
      (add_alert st ts zone ty).total_alerts = st.total_alerts + 1 ∧
      (st.alerts.length ≤ 50 →
        (add_alert st ts zone ty).alerts =
          (newAlert ts zone ty :: st.alerts).take 50)) ∧
    (∀ (a a' : AppState) (op : Op), op ≠ Op.clearAlerts →
      applyOp a op = some a' → a.sim.total_alerts ≤ a'.sim.total_alerts) ∧
    (∀ st : SimState,
      (clear_alerts st).alerts = [] ∧ (clear_alerts st).total_alerts = 0) ∧
    (∀ a : AppState,
      applyOp a Op.clearAlerts = some { a with sim := clear_alerts a.sim }) :=
  ⟨fun a ha => (reachable_inv a ha).1.alerts_le,
   fun st ts zone ty => ⟨add_alert_total st ts zone ty, add_alert_take st ts zone ty⟩,
   applyOp_total_mono,
   fun _ => ⟨rfl, rfl⟩,
   fun _ => rfl⟩

theorem claim5_witness :
    (initApp fs0).sim.alerts.length ≤ 50 ∧
    ((add_alert st0 "00:00:00" "Zone A (Central)" (some AType.leak)).total_alerts =
      st0.total_alerts + 1 ∧
     (add_alert st0 "00:00:00" "Zone A (Central)" (some AType.leak)).alerts =
      (newAlert "00:00:00" "Zone A (Central)" (some AType.leak) :: st0.alerts).take 50) ∧
    (initApp fs0).sim.total_alerts ≤
      ({ initApp fs0 with sim := resolve_anomaly (initApp fs0).sim "Zone A (Central)" } :
        AppState).sim.total_alerts ∧
    ((clear_alerts st0).alerts = [] ∧ (clear_alerts st0).total_alerts = 0) :=
  ⟨claim5.1 (initApp fs0) (Reachable.init fs0),
   ⟨(claim5.2.1 st0 "00:00:00" "Zone A (Central)" (some AType.leak)).1,
    (claim5.2.1 st0 "00:00:00" "Zone A (Central)" (some AType.leak)).2 (by decide)⟩,
   claim5.2.2.1 (initApp fs0) _ (Op.resolve "Zone A (Central)")
     (fun hc => Op.noConfusion hc) rfl,
   claim5.2.2.2.1 st0⟩

/-- Claim C6: clearAlerts empties the log and zeroes totalAlerts and changes
nothing else: the anomaly maps (so an active Leak stays a Leak), the history
buffers, the metrics, the pumps, the valves, the tick counter and the rest of
the state are untouched. -/
theorem claim6 (st : SimState) (z : String) :
    (clear_alerts st).alerts = [] ∧
    (clear_alerts st).total_alerts = 0 ∧
    (clear_alerts st).anomaly_active = st.anomaly_active ∧
    (clear_alerts st).anomaly_type = st.anomaly_type ∧
    (clear_alerts st).pressure_hist = st.pressure_hist ∧
    (clear_alerts st).flow_hist = st.flow_hist ∧
    (clear_alerts st).valve_status = st.valve_status ∧
    (clear_alerts st).pump_status = st.pump_status ∧
    (clear_alerts st).nrw_percent = st.nrw_percent ∧
    (clear_alerts st).energy_kwh = st.energy_kwh ∧
    (clear_alerts st).uptime_pct = st.uptime_pct ∧
    (clear_alerts st).tick = st.tick ∧
    (clear_alerts st).running = st.running ∧
    (clear_alerts st).history_len = st.history_len ∧
    dget? (clear_alerts st).anomaly_type z = dget? st.anomaly_type z ∧
    dget? (clear_alerts st).anomaly_active z = dget? st.anomaly_active z :=
  ⟨rfl, rfl, rfl, rfl, rfl, rfl, rfl, rfl, rfl, rfl, rfl, rfl, rfl, rfl, rfl, rfl⟩

/-- Claim C10: in every reachable state, each key's anomaly flag agrees with its
anomaly type — both entries exist together and the flag is true exactly when
the stored type is an active one (Leak, Burst or LowPressure), false exactly
when it is None — and every operation preserves this coherence. -/
theorem claim10 :
    (∀ a : AppState, Reachable a → Coherent a.sim) ∧
    (∀ (a a' : AppState) (op : Op), applyOp a op = some a' →
      Coherent a.sim → Coherent a'.sim) :=
  ⟨fun a ha => (reachable_inv a ha).2, coherent_applyOp⟩

theorem claim10_witness :
    Coherent (initApp fs0).sim ∧
    Coherent (resolve_anomaly (initApp fs0).sim "Zone B (North)") :=
  ⟨claim10.1 (initApp fs0) (Reachable.init fs0),
   claim10.2 (initApp fs0)
     { initApp fs0 with sim := resolve_anomaly (initApp fs0).sim "Zone B (North)" }
     (Op.resolve "Zone B (North)") rfl
     (claim10.1 (initApp fs0) (Reachable.init fs0))⟩

/-- Claim C7: `zone_status` is a pure function of the current state and agrees
with the spec's reference derivation: an active anomaly maps to BURST/LEAK/LOW
regardless of the pressure, otherwise LOW below minOkPressure, HIGH above
basePressure + 0.8, else OK (given the flag/type coherence invariant). -/
theorem claim7 (st : SimState) (zone : String) (p : ℚ) (a : Bool) (ty : Option AType)
    (i : ℕ) (base minOk : ℚ)
    (hp : current_pressure st zone = some p)
    (hi : List.findIdx? (fun z' => z' == zone) ZONES = some i)
    (ha : dget? st.anomaly_active zone = some a)
    (hty : dget? st.anomaly_type zone = some ty)
    (hcoh : a = true ↔ ty ≠ none)
    (hbase : ZONE_BASE_PRESSURE.get? i = some base)
    (hmin : ZONE_MIN_OK.get? i = some minOk) :
    zone_status st zone = some (specStatus ty p base minOk) := by
  unfold zone_status
  rw [hp, hi]
  simp only []
  rw [ha]
  simp only []
  cases a with
  | true =>
    rw [if_pos (rfl : true = true), hty]
    simp only []
    have hne : ty ≠ none := hcoh.mp rfl
    cases ty with
    | none => exact absurd rfl hne
    | some t => cases t <;> rfl
  | false =>
    have hnone : ty = none := by
      by_contra hc
      have := hcoh.mpr hc
      exact Bool.noConfusion this
    subst hnone
    rw [if_neg (by simp : ¬ (false = true))]
    rw [hmin, hbase]
    simp only []
    rfl

theorem claim7_witness :
    zone_status st0 "Zone A (Central)" =
      some (specStatus none (38/10) (38/10) (25/10)) :=
  claim7 st0 "Zone A (Central)" (38/10) false none 0 (38/10) (25/10)
    (by with_unfolding_all decide) (by decide) (by decide) (by decide)
    (by simp) (by with_unfolding_all decide) (by with_unfolding_all decide)

/-- A concrete state whose next tick lands on a multiple of 10. -/
def st9 : SimState := { st0 with tick := 9 }

theorem step9_isSome : (step sinQ0 o0 st9).isSome := by with_unfolding_all decide

/-- The state after the concrete metrics-updating tick of `st9`. -/
def st10w : SimState := (step sinQ0 o0 st9).get step9_isSome

theorem step9_eq : step sinQ0 o0 st9 = some st10w := (Option.some_get step9_isSome).symm

/-- The application state reached from a fresh start by one concrete tick. -/
def a1w : AppState := { sim := st1w, sim_running := true }

theorem applyTick0 : applyOp (initApp fs0) (Op.tick sinQ0 o0) = some a1w := by
  show (step sinQ0 o0 st0).map _ = _
  rw [step0_eq]
  rfl

/-- Claim C8: nrwPercent stays in [10, 35] and uptimePercent in [90, 100] in
every reachable state; energyKwh never decreases under any operation; the three
metrics change only on ticks whose count is a multiple of 10 (commands never
touch them); and on those ticks uptimePercent is 100 when no zone has an active
anomaly and max(90, 100 − 2.5·activeAnomalies) otherwise. -/
theorem claim8 :
    (∀ a : AppState, Reachable a →
      10 ≤ a.sim.nrw_percent ∧ a.sim.nrw_percent ≤ 35 ∧
      90 ≤ a.sim.uptime_pct ∧ a.sim.uptime_pct ≤ 100) ∧
    (∀ (a a' : AppState) (op : Op), OpValid op → applyOp a op = some a' →
      a.sim.energy_kwh ≤ a'.sim.energy_kwh) ∧
    (∀ (sinQ : ℚ → ℚ) (o : TickRand) (st st' : SimState),
      step sinQ o st = some st' →
      st'.tick = st.tick + 1 ∧
      (st'.tick % 10 ≠ 0 →
        st'.nrw_percent = st.nrw_percent ∧ st'.energy_kwh = st.energy_kwh ∧
        st'.uptime_pct = st.uptime_pct)) ∧
    (∀ (sinQ : ℚ → ℚ) (o : TickRand) (st st' : SimState),
      step sinQ o st = some st' → st'.tick % 10 = 0 →
      ∃ cnt, countActive st' = some cnt ∧
        st'.uptime_pct =
          (if cnt = 0 then 100 else max 90 (100 - (cnt : ℚ) * (5/2)))) ∧
    (∀ (st : SimState) (z : String) (idx : ℤ) (st' : SimState),
      (resolve_anomaly st z).nrw_percent = st.nrw_percent ∧
      (resolve_anomaly st z).energy_kwh = st.energy_kwh ∧
      (resolve_anomaly st z).uptime_pct = st.uptime_pct ∧
      (clear_alerts st).nrw_percent = st.nrw_percent ∧
      (clear_alerts st).energy_kwh = st.energy_kwh ∧
      (clear_alerts st).uptime_pct = st.uptime_pct ∧
      (toggle_valve st idx = some st' →
        st'.nrw_percent = st.nrw_percent ∧ st'.energy_kwh = st.energy_kwh ∧
        st'.uptime_pct = st.uptime_pct)) := by
  refine ⟨?_, applyOp_energy_mono, ?_, ?_, ?_⟩
  · intro a ha
    have hwf := (reachable_inv a ha).1
    exact ⟨hwf.nrw_lb, hwf.nrw_ub, hwf.up_lb, hwf.up_ub⟩
  · intro sinQ o st st' h
    obtain ⟨htick, hnotten, _⟩ := step_metrics _ _ _ _ h
    exact ⟨htick, hnotten⟩
  · intro sinQ o st st' h hmod
    obtain ⟨_, _, hten⟩ := step_metrics _ _ _ _ h
    exact (hten hmod).2.2
  · intro st z idx st'
    refine ⟨rfl, rfl, rfl, rfl, rfl, rfl, fun ht => ?_⟩
    obtain ⟨v, _, rfl⟩ := toggle_valve_inv _ _ _ ht
    exact ⟨rfl, rfl, rfl⟩

theorem claim8_witness :
    (10 ≤ (initApp fs0).sim.nrw_percent ∧ (initApp fs0).sim.nrw_percent ≤ 35 ∧
      90 ≤ (initApp fs0).sim.uptime_pct ∧ (initApp fs0).sim.uptime_pct ≤ 100) ∧
    (initApp fs0).sim.energy_kwh ≤ a1w.sim.energy_kwh ∧
    (st1w.tick = st0.tick + 1 ∧
      (st1w.tick % 10 ≠ 0 →
        st1w.nrw_percent = st0.nrw_percent ∧ st1w.energy_kwh = st0.energy_kwh ∧
        st1w.uptime_pct = st0.uptime_pct)) ∧
    (∃ cnt, countActive st10w = some cnt ∧
      st10w.uptime_pct =
        (if cnt = 0 then 100 else max 90 (100 - (cnt : ℚ) * (5/2)))) :=
  ⟨claim8.1 (initApp fs0) (Reachable.init fs0),
   claim8.2.1 (initApp fs0) a1w (Op.tick sinQ0 o0)
     (by constructor <;> with_unfolding_all decide) applyTick0,
   claim8.2.2.1 sinQ0 o0 st0 st1w step0_eq,
   claim8.2.2.2.1 sinQ0 o0 st9 st10w step9_eq (by with_unfolding_all decide)⟩
